import Mathlib

/-!
# betinha: the two-phase converter of `src/converter-gtk4.c`

A shallow embedding of the job orchestrator (progress parsers, the unified
ETA/fraction model, the exit handlers and the submission entry point) and the
properties proved about it.

Conventions of the embedding

* `gdouble` is `GDouble`: a finite value is an exact rational, and the IEEE 754
  special values `+inf`, `-inf` and `NaN` are kept, because `g_ascii_strtod`
  produces them (for the texts `inf` and `nan`, and for numbers beyond the
  range of `double`) and the C comparisons treat them specially.  A number too
  small for a `double` converts to zero.  Rounding of the significand and
  overflow or underflow of arithmetic on finite values are not modelled in
  this exact arithmetic; the section on binary64 gives the operations with
  rounding and the transcoder callback over them, for the one place where the
  rounding decides.  The sign of zero is not modelled (the code never divides
  by a zero whose sign could be observed: every divisor is guarded or is a
  positive constant).
* a text (`char *` to a whole string) is a `String`, a pointer into a text is
  the `List Char` it points at, and a character stands for a byte; only the
  part before the first NUL of a buffer is visible to the string functions.
* `gint64` clock values are `Int`: the monotonic clock is far from the ends of
  the 64-bit range, so the subtraction in the model does not wrap.
* the outside world (clock, `g_spawn_async_with_pipes`, `ffprobe`, the file
  system) is passed in as arguments; calls that leave the process
  (`spawn`, `kill`, `unlink`, the registration of watches) are recorded in the
  log field `calls`.
-/

namespace Betinha

/-! ## gdouble -/

/-- A C `double`: an exact finite value or one of the IEEE 754 special values. -/
inductive GDouble where
  | fin (q : ℚ)
  | pinf
  | ninf
  | nan
  deriving DecidableEq

namespace GDouble

instance : Inhabited GDouble := ⟨fin 0⟩

/-- Unary minus. -/
def neg : GDouble → GDouble
  | fin q => fin (-q)
  | pinf => ninf
  | ninf => pinf
  | nan => nan

/-- IEEE addition: `inf + (-inf)` and anything with NaN is NaN. -/
def add : GDouble → GDouble → GDouble
  | fin a, fin b => fin (a + b)
  | fin _, pinf => pinf
  | fin _, ninf => ninf
  | pinf, fin _ => pinf
  | pinf, pinf => pinf
  | ninf, fin _ => ninf
  | ninf, ninf => ninf
  | _, _ => nan

/-- IEEE subtraction. -/
def sub (a b : GDouble) : GDouble := add a (neg b)

/-- An infinity times the finite value `q`: NaN for `q = 0`, otherwise the
infinity whose sign is the product of the signs (`pos` tells whether the
infinite factor is `+inf`). -/
def infTimes (pos : Bool) (q : ℚ) : GDouble :=
  if q = 0 then nan else if decide (0 < q) == pos then pinf else ninf

/-- IEEE multiplication: `0 * inf` is NaN.  The product of finite values is
exact here; `mul_b64` is the product rounded to a `double`. -/
def mul : GDouble → GDouble → GDouble
  | fin a, fin b => fin (a * b)
  | fin a, pinf => infTimes true a
  | fin a, ninf => infTimes false a
  | pinf, fin b => infTimes true b
  | ninf, fin b => infTimes false b
  | pinf, pinf => pinf
  | ninf, ninf => pinf
  | pinf, ninf => ninf
  | ninf, pinf => ninf
  | _, _ => nan

/-- IEEE division: `x / 0` is an infinity (`0 / 0` NaN), `x / inf` is zero,
`inf / inf` is NaN.  A zero divisor is taken as `+0`. -/
def div : GDouble → GDouble → GDouble
  | fin a, fin b =>
      if b = 0 then (if a = 0 then nan else if 0 < a then pinf else ninf) else fin (a / b)
  | fin _, pinf => fin 0
  | fin _, ninf => fin 0
  | pinf, fin b => if 0 ≤ b then pinf else ninf
  | ninf, fin b => if 0 ≤ b then ninf else pinf
  | _, _ => nan

/-- The C comparison `a < b`: false as soon as one side is NaN. -/
def lt : GDouble → GDouble → Bool
  | fin a, fin b => decide (a < b)
  | fin _, pinf => true
  | ninf, fin _ => true
  | ninf, pinf => true
  | _, _ => false

/-- The C comparison `a > b`. -/
def gt (a b : GDouble) : Bool := lt b a

/-- The C comparison `a <= b`: false as soon as one side is NaN. -/
def le : GDouble → GDouble → Bool
  | fin a, fin b => decide (a ≤ b)
  | fin _, pinf => true
  | ninf, fin _ => true
  | ninf, pinf => true
  | pinf, pinf => true
  | ninf, ninf => true
  | _, _ => false

/-- Conversion of a 64-bit integer to `double`. -/
def ofInt (i : Int) : GDouble := fin (i : ℚ)

/-- Magnitudes from here on round to infinity: `2^1024 - 2^970`, half an ulp
above the largest finite double. -/
def overflowBound : ℚ := 2 ^ 1024 - 2 ^ 970

/-- Magnitudes up to here round to zero: `2^(-1075)`, half of the smallest
positive double. -/
def underflowBound : ℚ := 2 ^ (-1075 : ℤ)

/-- The result of a conversion from text: the exact value, an infinity when
the magnitude is out of the range of `double` (`ERANGE`, `HUGE_VAL`), or zero
when the magnitude is too small for a `double` (underflow). -/
def ofRatRange (q : ℚ) : GDouble :=
  if overflowBound ≤ q then pinf else if q ≤ -overflowBound then ninf
  else if |q| ≤ underflowBound then fin 0 else fin q

end GDouble

open GDouble

/-! ## C strings and the GLib string helpers -/

/-- The C string held in a buffer: the bytes before the first NUL. -/
def cstr (buf : List Char) : List Char := buf.takeWhile (fun c => c != Char.ofNat 0)

/-- `g_str_has_prefix (str, pre)`. -/
def g_str_has_prefix (str pre : List Char) : Bool := pre.isPrefixOf str

/-- `g_str_has_suffix (str, suffix)`. -/
def g_str_has_suffix (str suffix : List Char) : Bool := suffix.isSuffixOf str

/-- The search loop of `g_strstr_len` for a non-empty needle: the pointer
moves forward while at most `len - needle_len` bytes in and not on the
terminating NUL; the result is the text from the first match on. -/
def strstr_loop (needle : List Char) : List Char → Nat → Option (List Char)
  | [], _ => none
  | c :: cs, len =>
      if len < needle.length then none
      else if needle.isPrefixOf (c :: cs) then some (c :: cs)
      else strstr_loop needle cs (len - 1)

/-- `g_strstr_len (haystack, len, needle)` with `len >= 0`; the result is the
pointer into the haystack, shown as the text it points at. -/
def g_strstr_len (haystack : List Char) (len : Nat) (needle : List Char) :
    Option (List Char) :=
  if needle = [] then some haystack else strstr_loop needle haystack len

/-! ## g_ascii_strtod -/

/-- What the number scanner recognised at the start of a text. -/
inductive Scanned where
  | noconv
  | nan
  | inf (neg : Bool)
  | dec (neg : Bool) (mant : Nat) (exp10 : Int)
  | hex (neg : Bool) (mant : Nat) (exp2 : Int)
  deriving DecidableEq

/-- The C `isspace` in the C locale. -/
def c_isspace (c : Char) : Bool :=
  c == ' ' || c == '\t' || c == '\n' || c == '\r' || c.toNat == 11 || c.toNat == 12

/-- Value of a decimal digit. -/
def decDigit (c : Char) : Option Nat :=
  if '0' ≤ c ∧ c ≤ '9' then some (c.toNat - 48) else none

/-- Value of a hexadecimal digit. -/
def hexDigit (c : Char) : Option Nat :=
  if '0' ≤ c ∧ c ≤ '9' then some (c.toNat - 48)
  else if 'a' ≤ c ∧ c ≤ 'f' then some (c.toNat - 87)
  else if 'A' ≤ c ∧ c ≤ 'F' then some (c.toNat - 55)
  else none

/-- Reads the longest run of digits in the given base, continuing the
accumulator `acc` and the digit count `n`; returns both and the rest. -/
def scanDigits (base : Nat) (digit : Char → Option Nat) :
    List Char → Nat → Nat → Nat × Nat × List Char
  | [], acc, n => (acc, n, [])
  | c :: cs, acc, n =>
      match digit c with
      | some d => scanDigits base digit cs (acc * base + d) (n + 1)
      | none => (acc, n, c :: cs)

/-- An optional sign; returns whether it was a minus, and the rest. -/
def scanSign : List Char → Bool × List Char
  | '-' :: cs => (true, cs)
  | '+' :: cs => (false, cs)
  | cs => (false, cs)

/-- The optional exponent part introduced by one of the two marker letters:
a sign and at least one decimal digit, otherwise no exponent is read. -/
def scanExponent (lower upper : Char) : List Char → Int
  | [] => 0
  | c :: cs =>
      if c == lower || c == upper then
        let (neg, r) := scanSign cs
        let (e, n, _) := scanDigits 10 decDigit r 0 0
        if n = 0 then 0 else if neg then -(e : Int) else (e : Int)
      else 0

/-- Digits with an optional radix point, then the optional exponent: returns
the digits read as one integer, the number of digits read, the number of them
after the point, and the exponent. -/
def scanMantissa (base : Nat) (digit : Char → Option Nat) (lower upper : Char)
    (s : List Char) : Nat × Nat × Nat × Int :=
  let (m1, n1, r1) := scanDigits base digit s 0 0
  match r1 with
  | '.' :: r2 =>
      let (m2, n2, r3) := scanDigits base digit r2 m1 n1
      (m2, n2, n2 - n1, scanExponent lower upper r3)
  | _ => (m1, n1, 0, scanExponent lower upper r1)

/-- ASCII lower case. -/
def c_tolower (c : Char) : Char :=
  if 'A' ≤ c ∧ c ≤ 'Z' then Char.ofNat (c.toNat + 32) else c

/-- The subject sequence of `strtod` after white space and sign. -/
def scanBody (neg : Bool) (s : List Char) : Scanned :=
  let low := (s.take 3).map c_tolower
  if low = ['i', 'n', 'f'] then Scanned.inf neg
  else if low = ['n', 'a', 'n'] then Scanned.nan
  else
    let hexForm : Option (Nat × Nat × Nat × Int) :=
      match s with
      | '0' :: x :: r =>
          if x == 'x' || x == 'X' then
            let h := scanMantissa 16 hexDigit 'p' 'P' r
            if h.2.1 = 0 then none else some h
          else none
      | _ => none
    match hexForm with
    | some (m, _, k, e) => Scanned.hex neg m (e - 4 * (k : Int))
    | none =>
        let (m, n, k, e) := scanMantissa 10 decDigit 'e' 'E' s
        if n = 0 then Scanned.noconv else Scanned.dec neg m (e - (k : Int))

/-- The scanner of `strtod`: white space, sign, then the number. -/
def scanNumber (s : List Char) : Scanned :=
  let (neg, r) := scanSign (s.dropWhile c_isspace)
  scanBody neg r

/-- The `double` a scanned number stands for; no conversion gives 0. -/
def Scanned.value : Scanned → GDouble
  | Scanned.noconv => fin 0
  | Scanned.nan => GDouble.nan
  | Scanned.inf neg => if neg then ninf else pinf
  | Scanned.dec neg m e =>
      ofRatRange ((if neg then -1 else 1) * (m : ℚ) * (10 : ℚ) ^ e)
  | Scanned.hex neg m e =>
      ofRatRange ((if neg then -1 else 1) * (m : ℚ) * (2 : ℚ) ^ e)

/-- GLib's `g_ascii_strtod (nptr, NULL)`: the C-locale `strtod`, with the exact
value of the number read (`g_ascii_strtod_b64` rounds it to a `double`). -/
def g_ascii_strtod (nptr : List Char) : GDouble := (scanNumber nptr).value

/-! ## Application state -/

/-- The `Phase` enum. -/
inductive Phase where
  | PHASE_IDLE
  | PHASE_DOWNLOADING
  | PHASE_TRANSCODING
  deriving DecidableEq

/-- The function registered by `g_io_add_watch`. -/
inductive WatchFunc where
  | null
  | ytdlp_progress_cb
  | ffmpeg_progress_cb
  deriving DecidableEq

/-- The function registered by `g_child_watch_add`. -/
inductive ChildFunc where
  | child_watch_ytdlp
  | child_watch_ffmpeg
  deriving DecidableEq

/-- A call that leaves the program, in the order made. `io_add_watch` records
the descriptor of the channel, the function and whether the user data is the
application state (`true`) or `NULL` (`false`);
`source_remove_by_user_data_null` is `g_source_remove_by_user_data (NULL)`. -/
inductive Call where
  | unlink (path : String)
  | spawn (argv : List String)
  | io_add_watch (fd : Int) (func : WatchFunc) (data : Bool)
  | source_remove_by_user_data_null
  | child_watch_add (pid : Int) (func : ChildFunc)
  | kill (pid : Int)
  deriving DecidableEq

/-- The `AppWidgets` struct. A widget pointer is modelled by the content the
code reads from or writes to that widget; `calls` is the log of outside calls
(not a field of the C struct). -/
structure AppWidgets where
  input_entry : String
  output_entry : String
  format_dropdown : Nat
  progress_bar : GDouble
  progress_label : String
  status_label : String
  yt_pid : Int
  ffmpeg_pid : Int
  yt_io : Option Int
  ff_io : Option Int
  total_duration : GDouble
  phase : Phase
  t_start_us : Int
  dl_eta_sec : GDouble
  tx_eta_sec : GDouble
  dl_progress_0_1 : GDouble
  tx_progress_0_1 : GDouble
  cancel_requested : Bool
  calls : List Call

/-- The state made by `g_new0 (AppWidgets, 1)` and `activate`: all zero, the
dropdown on position 4 (MP4), the ETA label at its initial text. -/
def AppWidgets.init : AppWidgets where
  input_entry := ""
  output_entry := ""
  format_dropdown := 4
  progress_bar := fin 0
  progress_label := "00:00:00"
  status_label := ""
  yt_pid := 0
  ffmpeg_pid := 0
  yt_io := none
  ff_io := none
  total_duration := fin 0
  phase := Phase.PHASE_IDLE
  t_start_us := 0
  dl_eta_sec := fin 0
  tx_eta_sec := fin 0
  dl_progress_0_1 := fin 0
  tx_progress_0_1 := fin 0
  cancel_requested := false
  calls := []

/-- The result of `g_spawn_async_with_pipes`: the child's pid and the pipe
descriptor asked for, or the message of the error. -/
inductive SpawnResult where
  | ok (pid : Int) (fd : Int)
  | fail (message : String)

/-- The result of `g_io_channel_read_line`. -/
inductive ReadLine where
  | normal (line : String)
  | eof
  | again
  | error

/-- The `GIOCondition` bits the callbacks look at. -/
structure GIOCondition where
  hup : Bool
  err : Bool

def PYTHON_PROG : String := "python3"

def YTDLP_PATH : String := "./libs/yt-dlp"

def YTDLP_TMP_FILE : String := "/tmp/ytdlp_input.mkv"

/-- The strings of the format dropdown, in order (set up in `activate`). -/
def formats : List String := ["PNG", "JPEG", "WEBP", "GIF", "MP4", "MP3"]

/-- `gtk_string_list_get_string`: `NULL` past the end. -/
def gtk_string_list_get_string (sel : Nat) : Option String := formats.get? sel

/-! ## Helpers -/

/-- `is_youtube_url`. -/
def is_youtube_url (url : Option String) : Bool :=
  match url with
  | none => false
  | some u =>
      g_str_has_prefix u.data "https://www.youtube.com/".data ||
      g_str_has_prefix u.data "https://youtu.be/".data ||
      g_str_has_prefix u.data "http://www.youtube.com/".data ||
      g_str_has_prefix u.data "http://youtu.be/".data

/-- The extension chosen by the chain of `g_strcmp0` tests. -/
def format_ext (format : String) : String :=
  if format = "PNG" then ".png"
  else if format = "JPEG" then ".jpg"
  else if format = "WEBP" then ".webp"
  else if format = "GIF" then ".gif"
  else if format = "MP4" then ".mp4"
  else if format = "MP3" then ".mp3"
  else ""

/-- `append_extension_if_missing`; `none` is `NULL`. -/
def append_extension_if_missing (path format : Option String) : Option String :=
  match path, format with
  | some p, some f =>
      let ext := format_ext f
      if ext = "" then some p
      else if g_str_has_suffix p.data ext.data then some p
      else some (p ++ ext)
  | _, _ => none

/-- `ensure_output_path`: `fs` is what the file system answers to the
directory creation and the `fopen`, `none` for success and the error message
otherwise.  Returns the result and the `GError` message set, if any. -/
def ensure_output_path (filepath : Option String) (fs : Option String) :
    Bool × Option String :=
  match filepath with
  | none => (false, none)
  | some p =>
      if p = "" then (false, none)
      else
        match fs with
        | none => (true, none)
        | some message => (false, some message)

/-- The conversion `(int) x`, truncating toward zero.  Outside the range of
`int` (and for NaN) C leaves the result undefined; the model gives `INT_MIN`,
as the x86-64 conversion instruction does. -/
def c_double_to_int (x : GDouble) : Int :=
  match x with
  | fin q =>
      let t : Int := if 0 ≤ q then ⌊q⌋ else ⌈q⌉
      if -2147483648 ≤ t ∧ t ≤ 2147483647 then t else -2147483648
  | _ => -2147483648

/-- The `printf` conversion `%02d`. -/
def fmt_02d (n : Int) : String :=
  if n < 0 then "-" ++ toString n.natAbs
  else if n < 10 then "0" ++ toString n.natAbs
  else toString n.natAbs

/-- `format_secs`: the text written to the buffer. -/
def format_secs (secs : GDouble) : String :=
  let secs := if lt secs (fin 0) then fin 0 else secs
  let s := c_double_to_int (add secs (fin (1 / 2)))
  let hh := s.tdiv 3600
  let mm := (s.tmod 3600).tdiv 60
  let ss := s.tmod 60
  fmt_02d hh ++ ":" ++ fmt_02d mm ++ ":" ++ fmt_02d ss

/-- `get_media_duration`: `ffprobe` is the standard output of the probe,
`none` when `g_spawn_sync` fails or gives no output. -/
def get_media_duration (input : Option String) (ffprobe : Option String) : GDouble :=
  match input with
  | none => fin 0
  | some _ =>
      match ffprobe with
      | none => fin 0
      | some out =>
          let d := g_ascii_strtod (cstr out.data)
          if gt d (fin 0) then d else fin 0

/-! ## Unified progress and ETA -/

/-- The local `remain` of `update_unified_progress`. -/
def unified_remain (w : AppWidgets) : GDouble :=
  match w.phase with
  | Phase.PHASE_DOWNLOADING => add w.dl_eta_sec w.tx_eta_sec
  | Phase.PHASE_TRANSCODING => w.tx_eta_sec
  | Phase.PHASE_IDLE => fin 0

/-- The local `elapsed` of `update_unified_progress`, the clock reading
`now_us`. -/
def unified_elapsed (w : AppWidgets) (now_us : Int) : GDouble :=
  div (ofInt (now_us - w.t_start_us)) (fin 1000000)

/-- The local `frac` of `update_unified_progress` after the two clamps. -/
def unified_frac (w : AppWidgets) (now_us : Int) : GDouble :=
  let remain := unified_remain w
  let elapsed := unified_elapsed w now_us
  let est_total := add elapsed remain
  let frac := if gt est_total (fin (1 / 100)) then div elapsed est_total else fin 0
  let frac := if lt frac (fin 0) then fin 0 else frac
  let frac := if gt frac (fin 1) then fin 1 else frac
  frac

/-- `update_unified_progress`, with `now_us` the value of
`g_get_monotonic_time ()`. -/
def update_unified_progress (w : AppWidgets) (now_us : Int) : AppWidgets :=
  { w with
    progress_bar := unified_frac w now_us
    progress_label := format_secs (unified_remain w) }

/-! ## yt-dlp (download) -/

/-- The body run by `ytdlp_progress_cb` on a line read with status
`G_IO_STATUS_NORMAL`. -/
def ytdlp_progress_line (w : AppWidgets) (line : String) (now_us : Int) : AppWidgets :=
  let p := cstr line.data
  let len := line.length
  if g_str_has_prefix p "progress:[".data then
    let downloaded :=
      match g_strstr_len p len "downloaded=".data with
      | some tok => g_ascii_strtod (tok.drop 11)
      | none => fin 0
    let total :=
      match g_strstr_len p len "total=".data with
      | some tok => g_ascii_strtod (tok.drop 6)
      | none => fin 0
    let eta :=
      match g_strstr_len p len "eta=".data with
      | some tok => g_ascii_strtod (tok.drop 4)
      | none => fin 0
    let w := { w with dl_eta_sec := if gt eta (fin 0) then eta else fin 0 }
    let w :=
      if gt total (fin 0) then
        let w := { w with dl_progress_0_1 := div downloaded total }
        let w := if lt w.dl_progress_0_1 (fin 0) then { w with dl_progress_0_1 := fin 0 } else w
        let w := if gt w.dl_progress_0_1 (fin 1) then { w with dl_progress_0_1 := fin 1 } else w
        w
      else w
    update_unified_progress w now_us
  else w

/-- `ytdlp_progress_cb`: the new state and the value returned to the main
loop (`TRUE` keeps the watch). -/
def ytdlp_progress_cb (w : AppWidgets) (cond : GIOCondition) (rd : ReadLine)
    (now_us : Int) : AppWidgets × Bool :=
  if cond.hup || cond.err then (w, false)
  else
    match rd with
    | ReadLine.normal line => (ytdlp_progress_line w line now_us, true)
    | ReadLine.eof => (w, false)
    | ReadLine.again => (w, true)
    | ReadLine.error => (w, true)

/-- `WIFEXITED (status)`, as the Linux headers define it: the termination
signal, held in the low seven bits of the wait status, is 0. -/
def WIFEXITED (status : Nat) : Bool := status % 128 == 0

/-- `WEXITSTATUS (status)`, as the Linux headers define it: bits 8 to 15 of the
wait status. -/
def WEXITSTATUS (status : Nat) : Nat := (status / 256) % 256

/-- The argument vector of the transcoder; a `NULL` output ends the vector
early. -/
def ffmpeg_argv (input : String) (output : Option String) : List String :=
  ["ffmpeg", "-y", "-i", input, "-progress", "pipe:2", "-nostats"] ++ output.toList

/-- The argument vector of the downloader. -/
def ytdlp_argv (url : String) : List String :=
  [PYTHON_PROG, YTDLP_PATH, "--newline", "-f", "bv*+ba/b",
   "--merge-output-format", "mkv", "-o", YTDLP_TMP_FILE, "--progress-template",
   "progress:[downloaded=%(progress.downloaded_bytes)s total=%(progress.total_bytes)s eta=%(progress.eta)s speed=%(progress.speed)s percent=%(progress._percent_str)s]",
   url]

/-- `child_watch_ytdlp`: `status` is the wait status, `ffprobe` the output of
the duration probe, `fs` the answer of the file system to
`ensure_output_path`, `spawn` the result of launching the transcoder.  An
unset `GError` (possible only for a `NULL` or empty path) reads as the empty
message. -/
def child_watch_ytdlp (w : AppWidgets) (status : Nat) (ffprobe : Option String)
    (fs : Option String) (spawn : SpawnResult) (now_us : Int) : AppWidgets :=
  let w := { w with yt_io := none }
  let w := { w with yt_pid := 0 }
  if w.cancel_requested then
    { w with status_label := "Canceled.", progress_bar := fin 0 }
  else if !(WIFEXITED status && WEXITSTATUS status == 0) then
    { w with status_label := "Download failed." }
  else
    let w := { w with status_label := "Download finished. Starting conversion…" }
    let w := { w with phase := Phase.PHASE_TRANSCODING }
    let w := { w with total_duration := get_media_duration (some YTDLP_TMP_FILE) ffprobe }
    let output_raw := w.output_entry
    let fmt := gtk_string_list_get_string w.format_dropdown
    let output := append_extension_if_missing (some output_raw) fmt
    match ensure_output_path output fs with
    | (false, err) => { w with status_label := err.getD "" }
    | (true, _) =>
        let w := { w with calls := w.calls ++ [Call.spawn (ffmpeg_argv YTDLP_TMP_FILE output)] }
        match spawn with
        | SpawnResult.fail message => { w with status_label := message, ffmpeg_pid := 0 }
        | SpawnResult.ok pid stderr_fd =>
            let w := { w with ffmpeg_pid := pid }
            let w := { w with ff_io := some stderr_fd }
            let w := { w with calls := w.calls ++
              [Call.io_add_watch stderr_fd WatchFunc.ytdlp_progress_cb false,
               Call.source_remove_by_user_data_null,
               Call.io_add_watch stderr_fd WatchFunc.null false,
               Call.child_watch_add pid ChildFunc.child_watch_ffmpeg] }
            update_unified_progress w now_us

/-- `start_ytdlp`. -/
def start_ytdlp (w : AppWidgets) (url : String) (_output : Option String)
    (now_us : Int) (spawn : SpawnResult) : AppWidgets :=
  let w := { w with phase := Phase.PHASE_DOWNLOADING }
  let w := { w with dl_eta_sec := fin 0, tx_eta_sec := fin 0 }
  let w := { w with dl_progress_0_1 := fin 0, tx_progress_0_1 := fin 0 }
  let w := { w with cancel_requested := false }
  let w := { w with t_start_us := now_us }
  let w := { w with calls := w.calls ++ [Call.unlink YTDLP_TMP_FILE, Call.spawn (ytdlp_argv url)] }
  match spawn with
  | SpawnResult.fail message => { w with status_label := message, yt_pid := 0 }
  | SpawnResult.ok pid stdout_fd =>
      let w := { w with yt_pid := pid }
      let w := { w with status_label := "Downloading from YouTube…" }
      let w := { w with yt_io := some stdout_fd }
      { w with calls := w.calls ++
          [Call.io_add_watch stdout_fd WatchFunc.ytdlp_progress_cb true,
           Call.child_watch_add pid ChildFunc.child_watch_ytdlp] }

/-! ## ffmpeg progress -/

/-- The body run by `ffmpeg_progress_cb` on a line read with status
`G_IO_STATUS_NORMAL`. -/
def ffmpeg_progress_line (w : AppWidgets) (line : String) (now_us : Int) : AppWidgets :=
  let p := cstr line.data
  if g_str_has_prefix p "out_time_ms=".data then
    let ms := g_ascii_strtod (p.drop 12)
    let elapsed_media := div ms (fin 1000000)
    let speed_x := fin 1
    let w :=
      if gt w.total_duration (fin 0) then
        let remain_media := sub w.total_duration elapsed_media
        let remain_media := if lt remain_media (fin 0) then fin 0 else remain_media
        let eta_guess := div remain_media speed_x
        let w := { w with tx_eta_sec := eta_guess }
        let w := { w with tx_progress_0_1 := div elapsed_media w.total_duration }
        let w := if lt w.tx_progress_0_1 (fin 0) then { w with tx_progress_0_1 := fin 0 } else w
        let w := if gt w.tx_progress_0_1 (fin 1) then { w with tx_progress_0_1 := fin 1 } else w
        w
      else w
    update_unified_progress w now_us
  else if g_str_has_prefix p "speed=".data then
    let s := p.drop 6
    let speed_x := g_ascii_strtod s
    let speed_x := if lt speed_x (fin (1 / 10)) then fin (1 / 10) else speed_x
    let w :=
      if gt w.total_duration (fin 0) then
        let elapsed_media := mul w.tx_progress_0_1 w.total_duration
        let remain_media := sub w.total_duration elapsed_media
        let remain_media := if lt remain_media (fin 0) then fin 0 else remain_media
        { w with tx_eta_sec := div remain_media speed_x }
      else w
    update_unified_progress w now_us
  else if g_str_has_prefix p "progress=end".data then
    let w := { w with tx_eta_sec := fin 0 }
    update_unified_progress w now_us
  else w

/-- `ffmpeg_progress_cb`: the new state and the value returned to the main
loop. -/
def ffmpeg_progress_cb (w : AppWidgets) (cond : GIOCondition) (rd : ReadLine)
    (now_us : Int) : AppWidgets × Bool :=
  if cond.hup || cond.err then (w, false)
  else
    match rd with
    | ReadLine.normal line => (ffmpeg_progress_line w line now_us, true)
    | ReadLine.eof => (w, false)
    | ReadLine.again => (w, true)
    | ReadLine.error => (w, true)

/-- `child_watch_ffmpeg`. -/
def child_watch_ffmpeg (w : AppWidgets) (status : Nat) : AppWidgets :=
  let w := { w with ff_io := none }
  let w := { w with ffmpeg_pid := 0 }
  if w.cancel_requested then
    { w with status_label := "Canceled.", progress_bar := fin 0 }
  else if WIFEXITED status && WEXITSTATUS status == 0 then
    { w with
      status_label := "Conversion finished."
      progress_bar := fin 1
      progress_label := "00:00:00" }
  else
    { w with status_label := "Conversion failed." }

/-! ## Local-file ffmpeg path -/

/-- `start_ffmpeg_conversion`. -/
def start_ffmpeg_conversion (w : AppWidgets) (input : String) (output : Option String)
    (now_us : Int) (spawn : SpawnResult) : AppWidgets :=
  if w.ffmpeg_pid ≠ 0 ∨ w.yt_pid ≠ 0 then
    { w with status_label := "A job is already running." }
  else
    let w := { w with phase := Phase.PHASE_TRANSCODING }
    let w := { w with t_start_us := now_us }
    let w := { w with dl_eta_sec := fin 0, tx_eta_sec := fin 0 }
    let w := { w with cancel_requested := false }
    let w := { w with calls := w.calls ++ [Call.spawn (ffmpeg_argv input output)] }
    match spawn with
    | SpawnResult.fail message => { w with status_label := message, ffmpeg_pid := 0 }
    | SpawnResult.ok pid stderr_fd =>
        let w := { w with ffmpeg_pid := pid }
        let w := { w with ff_io := some stderr_fd }
        let w := { w with calls := w.calls ++
          [Call.io_add_watch stderr_fd WatchFunc.ffmpeg_progress_cb true,
           Call.child_watch_add pid ChildFunc.child_watch_ffmpeg] }
        { w with
          status_label := "Converting…"
          progress_bar := fin 0
          progress_label := "Calculating…" }

/-! ## UI callbacks -/

/-- `cancel_running`. -/
def cancel_running (w : AppWidgets) : AppWidgets :=
  let w := { w with cancel_requested := true }
  let w := if w.yt_pid ≠ 0 then { w with calls := w.calls ++ [Call.kill w.yt_pid] } else w
  let w := if w.ffmpeg_pid ≠ 0 then { w with calls := w.calls ++ [Call.kill w.ffmpeg_pid] } else w
  { w with status_label := "Canceling…" }

/-- `on_cancel_clicked`. -/
def on_cancel_clicked (w : AppWidgets) : AppWidgets := cancel_running w

/-- `on_convert_clicked`: `fs` is the answer of the file system to
`ensure_output_path`, `ffprobe` the output of the duration probe, `spawn` the
result of the launch.  The texts of the two entries are never `NULL`. -/
def on_convert_clicked (w : AppWidgets) (fs : Option String) (ffprobe : Option String)
    (now_us : Int) (spawn : SpawnResult) : AppWidgets :=
  let input := w.input_entry
  let output_raw := w.output_entry
  let fmt := gtk_string_list_get_string w.format_dropdown
  if input = "" ∨ output_raw = "" then
    { w with status_label := "Select input and output first." }
  else
    let output := append_extension_if_missing (some output_raw) fmt
    match ensure_output_path output fs with
    | (false, err) => { w with status_label := err.getD "" }
    | (true, _) =>
        if is_youtube_url (some input) then
          let fixed_output := append_extension_if_missing (some output_raw) fmt
          start_ytdlp w input fixed_output now_us spawn
        else
          let fixed_output := append_extension_if_missing (some output_raw) fmt
          let w := { w with total_duration := get_media_duration (some input) ffprobe }
          start_ffmpeg_conversion w input fixed_output now_us spawn

/-! ## Binary64: the arithmetic with rounding

The same operations with the result of each rounded to the nearest `double`
(ties to even, gradual underflow, overflow to infinity), and the transcoder
callback over them.  The exact arithmetic above and this one agree whenever
no operation rounds. -/

/-- Rounding of a rational to the nearest integer, ties to even. -/
def roundHalfEven (m : ℚ) : ℤ :=
  if m - (⌊m⌋ : ℚ) < 1 / 2 then ⌊m⌋
  else if 1 / 2 < m - (⌊m⌋ : ℚ) then ⌊m⌋ + 1
  else if ⌊m⌋ % 2 = 0 then ⌊m⌋ else ⌊m⌋ + 1

/-- The spacing of the doubles around `q`: `2^(e - 52)` for `2^e <= |q| <
2^(e+1)`, with `e` not below the smallest normal exponent -1022. -/
def ulp64 (q : ℚ) : ℚ := (2 : ℚ) ^ (max (Int.log 2 |q|) (-1022) - 52)

/-- The finite double nearest to `q` (no bound on the exponent from above). -/
def round64 (q : ℚ) : ℚ :=
  if q = 0 then 0 else (roundHalfEven (q / ulp64 q) : ℚ) * ulp64 q

/-- The `double` for the exact value `q`: the nearest one, or an infinity
beyond the range. -/
def binary64 (q : ℚ) : GDouble :=
  if overflowBound ≤ q then pinf else if q ≤ -overflowBound then ninf else fin (round64 q)

/-- Rounding of the exact result of an operation. -/
def rnd (x : GDouble) : GDouble :=
  match x with
  | fin q => binary64 q
  | y => y

/-- The C operation `a + b` on doubles. -/
def add_b64 (a b : GDouble) : GDouble := rnd (GDouble.add a b)

/-- The C operation `a - b` on doubles. -/
def sub_b64 (a b : GDouble) : GDouble := rnd (GDouble.sub a b)

/-- The C operation `a * b` on doubles. -/
def mul_b64 (a b : GDouble) : GDouble := rnd (GDouble.mul a b)

/-- The C operation `a / b` on doubles. -/
def div_b64 (a b : GDouble) : GDouble := rnd (GDouble.div a b)

/-- The correctly rounded `double` of a scanned number. -/
def Scanned.value_b64 : Scanned → GDouble
  | Scanned.noconv => fin 0
  | Scanned.nan => GDouble.nan
  | Scanned.inf neg => if neg then ninf else pinf
  | Scanned.dec neg m e => binary64 ((if neg then -1 else 1) * (m : ℚ) * (10 : ℚ) ^ e)
  | Scanned.hex neg m e => binary64 ((if neg then -1 else 1) * (m : ℚ) * (2 : ℚ) ^ e)

/-- `g_ascii_strtod (nptr, NULL)` with the value rounded to a `double`. -/
def g_ascii_strtod_b64 (nptr : List Char) : GDouble := (scanNumber nptr).value_b64

/-- `format_secs` over the rounded arithmetic. -/
def format_secs_b64 (secs : GDouble) : String :=
  let secs := if lt secs (fin 0) then fin 0 else secs
  let s := c_double_to_int (add_b64 secs (fin (1 / 2)))
  let hh := s.tdiv 3600
  let mm := (s.tmod 3600).tdiv 60
  let ss := s.tmod 60
  fmt_02d hh ++ ":" ++ fmt_02d mm ++ ":" ++ fmt_02d ss

/-- `update_unified_progress` over the rounded arithmetic. -/
def update_unified_progress_b64 (w : AppWidgets) (now_us : Int) : AppWidgets :=
  let remain :=
    match w.phase with
    | Phase.PHASE_DOWNLOADING => add_b64 w.dl_eta_sec w.tx_eta_sec
    | Phase.PHASE_TRANSCODING => w.tx_eta_sec
    | Phase.PHASE_IDLE => fin 0
  let elapsed := div_b64 (binary64 ((now_us - w.t_start_us : Int) : ℚ)) (fin 1000000)
  let est_total := add_b64 elapsed remain
  let frac := if gt est_total (binary64 (1 / 100)) then div_b64 elapsed est_total else fin 0
  let frac := if lt frac (fin 0) then fin 0 else frac
  let frac := if gt frac (fin 1) then fin 1 else frac
  { w with
    progress_bar := frac
    progress_label := format_secs_b64 remain }

/-- The body run by `ffmpeg_progress_cb` on a line read with status
`G_IO_STATUS_NORMAL`, over the rounded arithmetic. -/
def ffmpeg_progress_line_b64 (w : AppWidgets) (line : String) (now_us : Int) : AppWidgets :=
  let p := cstr line.data
  if g_str_has_prefix p "out_time_ms=".data then
    let ms := g_ascii_strtod_b64 (p.drop 12)
    let elapsed_media := div_b64 ms (fin 1000000)
    let speed_x := fin 1
    let w :=
      if gt w.total_duration (fin 0) then
        let remain_media := sub_b64 w.total_duration elapsed_media
        let remain_media := if lt remain_media (fin 0) then fin 0 else remain_media
        let eta_guess := div_b64 remain_media speed_x
        let w := { w with tx_eta_sec := eta_guess }
        let w := { w with tx_progress_0_1 := div_b64 elapsed_media w.total_duration }
        let w := if lt w.tx_progress_0_1 (fin 0) then { w with tx_progress_0_1 := fin 0 } else w
        let w := if gt w.tx_progress_0_1 (fin 1) then { w with tx_progress_0_1 := fin 1 } else w
        w
      else w
    update_unified_progress_b64 w now_us
  else if g_str_has_prefix p "speed=".data then
    let s := p.drop 6
    let speed_x := g_ascii_strtod_b64 s
    let speed_x := if lt speed_x (binary64 (1 / 10)) then binary64 (1 / 10) else speed_x
    let w :=
      if gt w.total_duration (fin 0) then
        let elapsed_media := mul_b64 w.tx_progress_0_1 w.total_duration
        let remain_media := sub_b64 w.total_duration elapsed_media
        let remain_media := if lt remain_media (fin 0) then fin 0 else remain_media
        { w with tx_eta_sec := div_b64 remain_media speed_x }
      else w
    update_unified_progress_b64 w now_us
  else if g_str_has_prefix p "progress=end".data then
    let w := { w with tx_eta_sec := fin 0 }
    update_unified_progress_b64 w now_us
  else w

/-- `ffmpeg_progress_cb` over the rounded arithmetic: the new state and the
value returned to the main loop. -/
def ffmpeg_progress_cb_b64 (w : AppWidgets) (cond : GIOCondition) (rd : ReadLine)
    (now_us : Int) : AppWidgets × Bool :=
  if cond.hup || cond.err then (w, false)
  else
    match rd with
    | ReadLine.normal line => (ffmpeg_progress_line_b64 w line now_us, true)
    | ReadLine.eof => (w, false)
    | ReadLine.again => (w, true)
    | ReadLine.error => (w, true)

/-! ## Notions used by the statements -/

/-- The condition of a watch called because input is ready. -/
def io_in : GIOCondition := { hup := false, err := false }

/-- The text of a token of a progress line: what follows the first occurrence
of `key`, if there is one. -/
def token_text (line key : String) : Option (List Char) :=
  match g_strstr_len (cstr line.data) line.length key.data with
  | some tok => some (tok.drop key.length)
  | none => none

/-- The value of a token of a progress line: the number read right after the
first occurrence of `key`, a missing token counting as 0. -/
def token_value (line key : String) : GDouble :=
  match g_strstr_len (cstr line.data) line.length key.data with
  | some tok => g_ascii_strtod (tok.drop key.length)
  | none => fin 0

/-- A token is non-numeric when it is missing or when no number can be read at
the start of its text (`strtod` performs no conversion). -/
def token_non_numeric (line key : String) : Bool :=
  match token_text line key with
  | some t => decide (scanNumber t = Scanned.noconv)
  | none => true

/-- The invariant of the progress snapshot: both remaining times are at least
0 and both fractions lie in `[0, 1]`. -/
def progress_invariant (w : AppWidgets) : Bool :=
  GDouble.le (fin 0) w.dl_eta_sec && GDouble.le (fin 0) w.tx_eta_sec &&
  (GDouble.le (fin 0) w.dl_progress_0_1 && GDouble.le w.dl_progress_0_1 (fin 1)) &&
  (GDouble.le (fin 0) w.tx_progress_0_1 && GDouble.le w.tx_progress_0_1 (fin 1))

/-- The state after the transcoder's lines `lines` have been read one by one,
each with the clock reading at its arrival. -/
def feed_ffmpeg (w : AppWidgets) (lines : List (String × Int)) : AppWidgets :=
  lines.foldl (fun w l => (ffmpeg_progress_cb w io_in (ReadLine.normal l.1) l.2).1) w

/-- The watches the log registers on the channel of descriptor `fd`, oldest
first: the function and whether its user data is the application state. -/
def watches_on (calls : List Call) (fd : Int) : List (WatchFunc × Bool) :=
  calls.filterMap (fun c =>
    match c with
    | Call.io_add_watch fd2 func data => if fd2 = fd then some (func, data) else none
    | _ => none)

/-- The watches left when `g_source_remove_by_user_data (NULL)` destroys one
of them: the oldest whose user data is `NULL`. -/
def remove_null_data : List (WatchFunc × Bool) → List (WatchFunc × Bool)
  | [] => []
  | (func, data) :: rest => if data then (func, data) :: remove_null_data rest else rest

/-- What the main loop does with one watch when a line is readable: it calls
the function with the user data.  A function that got `NULL` for the
application state cannot touch the state, and a line that makes it follow the
pointer ends the program (`none`); a watch without a function is dropped by
GLib with a warning. -/
def dispatch_watch (w : AppWidgets) (func : WatchFunc) (data : Bool) (line : String)
    (now_us : Int) : Option AppWidgets :=
  match func, data with
  | WatchFunc.null, _ => some w
  | WatchFunc.ytdlp_progress_cb, true =>
      some (ytdlp_progress_cb w io_in (ReadLine.normal line) now_us).1
  | WatchFunc.ffmpeg_progress_cb, true =>
      some (ffmpeg_progress_cb w io_in (ReadLine.normal line) now_us).1
  | WatchFunc.ytdlp_progress_cb, false =>
      if g_str_has_prefix (cstr line.data) "progress:[".data then none else some w
  | WatchFunc.ffmpeg_progress_cb, false =>
      if g_str_has_prefix (cstr line.data) "out_time_ms=".data
          || g_str_has_prefix (cstr line.data) "speed=".data
          || g_str_has_prefix (cstr line.data) "progress=end".data then none
      else some w

/-- A line arriving on a channel with the watches `ws`: the oldest watch that
has a function reads it; without such a watch nobody reads it. -/
def deliver_line (w : AppWidgets) (ws : List (WatchFunc × Bool)) (line : String)
    (now_us : Int) : Option AppWidgets :=
  match ws.find? (fun x => decide (x.1 ≠ WatchFunc.null)) with
  | some (func, data) => dispatch_watch w func data line now_us
  | none => some w

/-- Lines arriving one after the other, each with the clock reading at its
arrival. -/
def deliver_lines (w : AppWidgets) (ws : List (WatchFunc × Bool)) :
    List (String × Int) → Option AppWidgets
  | [] => some w
  | l :: rest =>
      match deliver_line w ws l.1 l.2 with
      | some w2 => deliver_lines w2 ws rest
      | none => none

/-- The C idiom `if (x < 0) x = 0;`: the value with negatives raised to 0. -/
def nonneg_part (x : GDouble) : GDouble := if lt x (fin 0) then fin 0 else x

/-! ## Sample states -/

/-- A two-phase job right after its start at clock 1000000: the URL and the
output are entered and the downloader runs as process 4001. -/
def sample_download : AppWidgets :=
  start_ytdlp
    { AppWidgets.init with input_entry := "https://youtu.be/abc", output_entry := "/tmp/out" }
    "https://youtu.be/abc" (some "/tmp/out.mp4") 1000000 (SpawnResult.ok 4001 7)

/-- A single-phase job on a two-minute file right after its start at clock
1000000, the transcoder running as process 4002. -/
def sample_transcode : AppWidgets :=
  start_ffmpeg_conversion
    { AppWidgets.init with
      input_entry := "a.mov", output_entry := "/tmp/out", total_duration := fin 120 }
    "a.mov" (some "/tmp/out.mp4") 1000000 (SpawnResult.ok 4002 8)

/-- A download under way: 42 seconds reported left, half of the bytes there. -/
def sample_download_midway : AppWidgets :=
  { sample_download with dl_eta_sec := fin 42, dl_progress_0_1 := fin (1 / 2) }

/-- A single-phase job half way through: the transcoder is live as process
4002, 30 seconds are estimated left, and the user has typed a video URL into
the input entry. -/
def sample_live_url : AppWidgets :=
  { sample_transcode with
    input_entry := "https://youtu.be/abc"
    tx_eta_sec := fin 30
    tx_progress_0_1 := fin (1 / 2) }

/-- The same live job with a local file in the input entry. -/
def sample_live_local : AppWidgets :=
  { sample_transcode with
    input_entry := "b.mov"
    tx_eta_sec := fin 30
    tx_progress_0_1 := fin (1 / 2) }

/-- The malformed progress line of scenario E. -/
def scenario_E_line : String := "progress:[downloaded=abc total=xyz eta=]"


/-- Scenario B after the download: the downloader of `sample_download` has
exited with status 0, the probe of the artifact printed 40 seconds, and the
transcoder was launched as process 4010 with its progress pipe on
descriptor 9. -/
def sample_two_phase : AppWidgets :=
  child_watch_ytdlp sample_download 0 (some "40.0\n") none (SpawnResult.ok 4010 9) 5000000

/-- A single-phase job on a file of 40 seconds, the transcoder launched as
process 4010 with its progress pipe on descriptor 9. -/
def sample_single_phase : AppWidgets :=
  start_ffmpeg_conversion
    { AppWidgets.init with
      input_entry := "a.mov", output_entry := "/tmp/out", total_duration := fin 40 }
    "a.mov" (some "/tmp/out.mp4") 5000000 (SpawnResult.ok 4010 9)

/-- The two progress lines of the transcoder in scenario B. -/
def scenario_B_lines : List (String × Int) :=
  [("out_time_ms=20000000\n", 6000000), ("speed=1.0x\n", 6000100)]

/-- A single-phase job on a file of 19 seconds right after its start, the
transcoder running as process 4002. -/
def sample_nineteen : AppWidgets :=
  start_ffmpeg_conversion
    { AppWidgets.init with
      input_entry := "c.mov", output_entry := "/tmp/out", total_duration := fin 19 }
    "c.mov" (some "/tmp/out.mp4") 1000000 (SpawnResult.ok 4002 8)

/-! ## Facts about the arithmetic -/

theorem unified_elapsed_eq (w : AppWidgets) (now_us : Int) :
    unified_elapsed w now_us = fin (((now_us - w.t_start_us : Int) : ℚ) / 1000000) := by
  simp [unified_elapsed, GDouble.ofInt, GDouble.div]

/-- The two clamps on a finite value give the value cut to `[0, 1]`. -/
theorem clamp_fin (x : ℚ) :
    (if GDouble.gt (if GDouble.lt (fin x) (fin 0) then fin 0 else fin x) (fin 1) then fin 1
      else (if GDouble.lt (fin x) (fin 0) then fin 0 else fin x)) = fin (max 0 (min 1 x)) := by
  by_cases h0 : x < 0
  · have : max 0 (min 1 x) = 0 := by
      rw [max_eq_left]; exact le_trans (min_le_right _ _) h0.le
    simp [GDouble.lt, GDouble.gt, h0, this]
  · by_cases h1 : 1 < x
    · have : max 0 (min 1 x) = 1 := by
        rw [min_eq_left h1.le]; simp
      simp [GDouble.lt, GDouble.gt, h0, h1, this]
    · have : max 0 (min 1 x) = x := by
        rw [min_eq_right (not_lt.mp h1), max_eq_right (not_lt.mp h0)]
      simp [GDouble.lt, GDouble.gt, h0, h1, this]

/-- A value that is at least 0 is a finite non-negative number or `+inf`. -/
theorem nonneg_cases (x : GDouble) (h : GDouble.le (fin 0) x = true) :
    (∃ q : ℚ, x = fin q ∧ 0 ≤ q) ∨ x = pinf := by
  cases x with
  | fin q => exact Or.inl ⟨q, rfl, by simpa [GDouble.le] using h⟩
  | pinf => exact Or.inr rfl
  | ninf => simp [GDouble.le] at h
  | nan => simp [GDouble.le] at h

/-- The sum of two values that are at least 0 is at least 0. -/
theorem add_nonneg_of_nonneg (a b : GDouble) (ha : GDouble.le (fin 0) a = true)
    (hb : GDouble.le (fin 0) b = true) : GDouble.le (fin 0) (GDouble.add a b) = true := by
  rcases nonneg_cases a ha with ⟨x, rfl, hx⟩ | rfl <;>
  rcases nonneg_cases b hb with ⟨y, rfl, hy⟩ | rfl <;>
  simp [GDouble.add, GDouble.le, add_nonneg, *]

/-- The remaining time shown is at least 0 when both estimates are. -/
theorem unified_remain_nonneg (w : AppWidgets) (hdl : GDouble.le (fin 0) w.dl_eta_sec = true)
    (htx : GDouble.le (fin 0) w.tx_eta_sec = true) :
    GDouble.le (fin 0) (unified_remain w) = true := by
  unfold unified_remain
  cases w.phase with
  | PHASE_IDLE => simp [GDouble.le]
  | PHASE_DOWNLOADING => exact add_nonneg_of_nonneg _ _ hdl htx
  | PHASE_TRANSCODING => exact htx

/-- The fraction computed from an elapsed time `fin e` and a remaining time `r`. -/
theorem frac_of_parts (e : ℚ) (r : GDouble) (he : 0 ≤ e) (hr : GDouble.le (fin 0) r = true) :
    let est := GDouble.add (fin e) r
    let f0 := if GDouble.gt est (fin (1 / 100)) then GDouble.div (fin e) est else fin 0
    let f1 := if GDouble.lt f0 (fin 0) then fin 0 else f0
    let f2 := if GDouble.gt f1 (fin 1) then fin 1 else f1
    GDouble.le (fin 0) f2 = true ∧ GDouble.le f2 (fin 1) = true ∧
      (GDouble.le est (fin (1 / 100)) = true → f2 = fin 0) := by
  intro est f0 f1 f2
  have hf0 : ∃ x : ℚ, f0 = fin x ∧ 0 ≤ x ∧ x ≤ 1 ∧
      (GDouble.le est (fin (1 / 100)) = true → x = 0) := by
    cases r with
    | nan => simp [GDouble.le] at hr
    | ninf => simp [GDouble.le] at hr
    | pinf =>
      refine ⟨0, ?_, le_refl _, by norm_num, fun _ => rfl⟩
      simp [f0, est, GDouble.add, GDouble.gt, GDouble.lt, GDouble.div]
    | fin q =>
      simp only [GDouble.le, decide_eq_true_eq] at hr
      by_cases h : (1:ℚ) / 100 < e + q
      · have hpos : 0 < e + q := lt_trans (by norm_num) h
        refine ⟨e / (e + q), ?_, div_nonneg he hpos.le, ?_, ?_⟩
        · simp only [f0, est, GDouble.add, GDouble.gt, GDouble.lt, decide_eq_true h, if_true,
            GDouble.div, if_neg (ne_of_gt hpos)]
        · rw [div_le_one hpos]; linarith
        · intro h2
          simp only [est, GDouble.add, GDouble.le, decide_eq_true_eq] at h2
          exact absurd h (not_lt.mpr h2)
      · refine ⟨0, ?_, le_refl _, by norm_num, fun _ => rfl⟩
        simp only [f0, est, GDouble.add, GDouble.gt, GDouble.lt, decide_eq_false h]
        simp
  obtain ⟨x, hx, hx0, hx1, hxz⟩ := hf0
  have hf2 : f2 = fin x := by
    simp only [f2, f1, hx]
    rw [clamp_fin, min_eq_right hx1, max_eq_right hx0]
  rw [hf2]
  refine ⟨by simpa [GDouble.le] using hx0, by simpa [GDouble.le] using hx1, ?_⟩
  intro h; rw [hxz h]

/-! ## C1: the display fraction -/

/-- C1. For every phase, every elapsed time that is at least 0 and remaining-time
estimates that are at least 0, the fraction `update_unified_progress` puts on the
bar lies in `[0, 1]`, and it is 0 whenever elapsed plus remaining does not exceed
the 0.01 s epsilon. -/
theorem C1_display_fraction_in_unit_interval (w : AppWidgets) (now_us : Int)
    (hel : GDouble.le (fin 0) (unified_elapsed w now_us) = true)
    (hdl : GDouble.le (fin 0) w.dl_eta_sec = true)
    (htx : GDouble.le (fin 0) w.tx_eta_sec = true) :
    GDouble.le (fin 0) (update_unified_progress w now_us).progress_bar = true ∧
    GDouble.le (update_unified_progress w now_us).progress_bar (fin 1) = true ∧
    (GDouble.le (GDouble.add (unified_elapsed w now_us) (unified_remain w)) (fin (1 / 100)) = true →
      (update_unified_progress w now_us).progress_bar = fin 0) := by
  have hr := unified_remain_nonneg w hdl htx
  rw [unified_elapsed_eq] at hel ⊢
  have he : (0 : ℚ) ≤ ((now_us - w.t_start_us : Int) : ℚ) / 1000000 := by
    simpa [GDouble.le] using hel
  have key := frac_of_parts _ (unified_remain w) he hr
  simp only [update_unified_progress, unified_frac, unified_elapsed_eq]
  exact key

/-- C1 at a download that has run for five seconds with ten seconds reported left. -/
theorem C1_display_fraction_witness :
    GDouble.le (fin 0) (unified_elapsed { sample_download with dl_eta_sec := fin 10 } 6000000) = true ∧
    GDouble.le (fin 0)
      (update_unified_progress { sample_download with dl_eta_sec := fin 10 } 6000000).progress_bar
        = true ∧
    GDouble.le
      (update_unified_progress { sample_download with dl_eta_sec := fin 10 } 6000000).progress_bar
        (fin 1) = true :=
  have hel : GDouble.le (fin 0)
      (unified_elapsed { sample_download with dl_eta_sec := fin 10 } 6000000) = true := by
    rw [unified_elapsed_eq]
    simp only [GDouble.le, sample_download, start_ytdlp, decide_eq_true_eq]
    norm_num
  have h := C1_display_fraction_in_unit_interval
    { sample_download with dl_eta_sec := fin 10 } 6000000 hel
    (by simp [GDouble.le]) (by simp [GDouble.le, sample_download, start_ytdlp])
  ⟨hel, h.1, h.2.1⟩

/-! ## The download-progress parser -/

/-- The value of a token is the number read from its text. -/
theorem token_value_of_text (line key : String) :
    token_value line key =
      (match token_text line key with
        | some t => g_ascii_strtod t
        | none => fin 0) := by
  unfold token_value token_text
  cases g_strstr_len (cstr line.data) line.length key.data <;> rfl

theorem key_lengths :
    "downloaded=".length = 11 ∧ "total=".length = 6 ∧ "eta=".length = 4 :=
  ⟨rfl, rfl, rfl⟩

/-- Updating the display leaves the snapshot fields as they are. -/
theorem update_unified_progress_fields (w : AppWidgets) (now_us : Int) :
    (update_unified_progress w now_us).dl_eta_sec = w.dl_eta_sec ∧
    (update_unified_progress w now_us).tx_eta_sec = w.tx_eta_sec ∧
    (update_unified_progress w now_us).dl_progress_0_1 = w.dl_progress_0_1 ∧
    (update_unified_progress w now_us).tx_progress_0_1 = w.tx_progress_0_1 :=
  ⟨rfl, rfl, rfl, rfl⟩

/-- The remaining-seconds field after a progress line. -/
theorem ytdlp_line_dl_eta (w : AppWidgets) (line : String) (now_us : Int)
    (hpre : g_str_has_prefix (cstr line.data) "progress:[".data = true) :
    (ytdlp_progress_line w line now_us).dl_eta_sec =
      (if GDouble.gt (token_value line "eta=") (fin 0) then token_value line "eta=" else fin 0) := by
  simp only [ytdlp_progress_line, token_value, key_lengths.2.2, hpre, if_true]
  split_ifs <;> rfl

/-- The download fraction after a progress line. -/
theorem ytdlp_line_dl_progress (w : AppWidgets) (line : String) (now_us : Int)
    (hpre : g_str_has_prefix (cstr line.data) "progress:[".data = true) :
    (ytdlp_progress_line w line now_us).dl_progress_0_1 =
      (if GDouble.gt (token_value line "total=") (fin 0) then
        (if GDouble.gt
            (if GDouble.lt (GDouble.div (token_value line "downloaded=") (token_value line "total="))
                (fin 0) then fin 0
              else GDouble.div (token_value line "downloaded=") (token_value line "total="))
            (fin 1) then fin 1
          else
            (if GDouble.lt (GDouble.div (token_value line "downloaded=") (token_value line "total="))
                (fin 0) then fin 0
              else GDouble.div (token_value line "downloaded=") (token_value line "total=")))
      else w.dl_progress_0_1) := by
  simp only [ytdlp_progress_line, token_value, key_lengths.1, key_lengths.2.1, hpre, if_true]
  split_ifs <;> rfl

/-- A non-numeric token has the value 0. -/
theorem token_value_non_numeric (line key : String) (h : token_non_numeric line key = true) :
    token_value line key = fin 0 := by
  rw [token_value_of_text]
  unfold token_non_numeric at h
  cases ht : token_text line key with
  | none => rfl
  | some t =>
    rw [ht] at h
    have hs : scanNumber t = Scanned.noconv := by simpa using h
    simp [g_ascii_strtod, hs, Scanned.value]

/-- A token whose text scans as the number `sc` has the value of `sc`. -/
theorem token_value_of_scan (line key : String) (sc : Scanned)
    (h : (token_text line key).map scanNumber = some sc) :
    token_value line key = sc.value := by
  rw [token_value_of_text]
  cases ht : token_text line key with
  | none => rw [ht] at h; simp at h
  | some t =>
    rw [ht] at h
    simp only [Option.map_some', Option.some.injEq] at h
    simp [g_ascii_strtod, h]

/-- The value of a scanned natural number of moderate size. -/
theorem value_dec_nat (m : ℕ) (hm : m < 2 ^ 64) :
    (Scanned.dec false m 0).value = fin (m : ℚ) := by
  have h1 : (m : ℚ) < 2 ^ 64 := by exact_mod_cast hm
  have hb : (2 : ℚ) ^ 64 < overflowBound := by unfold overflowBound; norm_num
  have h2 : ¬ overflowBound ≤ (m : ℚ) := not_le.mpr (lt_trans h1 hb)
  have h3 : ¬ (m : ℚ) ≤ -overflowBound := by
    have : (0 : ℚ) ≤ (m : ℚ) := Nat.cast_nonneg m
    have : (0 : ℚ) < overflowBound := lt_trans (by norm_num) hb
    intro h; linarith
  have hu : underflowBound < 1 := by unfold underflowBound; norm_num
  have hval : (if false = true then (-1 : ℚ) else 1) * (m : ℚ) * (10 : ℚ) ^ (0 : ℤ) = (m : ℚ) := by
    simp
  simp only [Scanned.value, hval, ofRatRange, if_neg h2, if_neg h3]
  by_cases hm0 : m = 0
  · subst hm0
    simp
  · have h4 : ¬ |(m : ℚ)| ≤ underflowBound := by
      have h1m : (1 : ℚ) ≤ (m : ℚ) := by exact_mod_cast Nat.one_le_iff_ne_zero.mpr hm0
      rw [abs_of_nonneg (Nat.cast_nonneg m)]
      intro h; linarith
    rw [if_neg h4]

/-- What a progress line does when total is a positive finite number. -/
theorem ytdlp_line_fraction_fin (w : AppWidgets) (line : String) (now_us : Int) (d t : ℚ)
    (hpre : g_str_has_prefix (cstr line.data) "progress:[".data = true)
    (hd : token_value line "downloaded=" = fin d)
    (ht : token_value line "total=" = fin t) (hpos : 0 < t) :
    (ytdlp_progress_line w line now_us).dl_progress_0_1 = fin (max 0 (min 1 (d / t))) := by
  rw [ytdlp_line_dl_progress w line now_us hpre, hd, ht]
  have hgt : GDouble.gt (fin t) (fin 0) = true := by simp [GDouble.gt, GDouble.lt, hpos]
  have hdiv : GDouble.div (fin d) (fin t) = fin (d / t) := by
    simp [GDouble.div, ne_of_gt hpos]
  rw [if_pos hgt, hdiv, clamp_fin]

/-! ## C2: the download-progress parser -/

/-- C2. For every line that begins with `progress:[` and whose tokens parse to
the values `downloaded`, `total` (finite numbers) and `eta`, a missing token
counting as 0, `ytdlp_progress_cb` sets the download remaining seconds to `eta`
if `eta > 0` and to 0 otherwise; when `total > 0` it sets the download fraction
to `downloaded / total` cut to `[0, 1]` (1 when `downloaded > total`, 0 when
`downloaded < 0`); when `total <= 0` the download fraction is left unchanged. -/
theorem C2_download_progress_update (w : AppWidgets) (line : String) (now_us : Int) (d t : ℚ)
    (hpre : g_str_has_prefix (cstr line.data) "progress:[".data = true)
    (hd : token_value line "downloaded=" = fin d)
    (ht : token_value line "total=" = fin t) :
    (GDouble.gt (token_value line "eta=") (fin 0) = true →
      (ytdlp_progress_cb w io_in (ReadLine.normal line) now_us).1.dl_eta_sec
        = token_value line "eta=") ∧
    (GDouble.gt (token_value line "eta=") (fin 0) = false →
      (ytdlp_progress_cb w io_in (ReadLine.normal line) now_us).1.dl_eta_sec = fin 0) ∧
    (0 < t →
      (ytdlp_progress_cb w io_in (ReadLine.normal line) now_us).1.dl_progress_0_1
        = fin (max 0 (min 1 (d / t)))) ∧
    (0 < t → t < d →
      (ytdlp_progress_cb w io_in (ReadLine.normal line) now_us).1.dl_progress_0_1 = fin 1) ∧
    (0 < t → d < 0 →
      (ytdlp_progress_cb w io_in (ReadLine.normal line) now_us).1.dl_progress_0_1 = fin 0) ∧
    (t ≤ 0 →
      (ytdlp_progress_cb w io_in (ReadLine.normal line) now_us).1.dl_progress_0_1
        = w.dl_progress_0_1) := by
  have hcb : (ytdlp_progress_cb w io_in (ReadLine.normal line) now_us).1
      = ytdlp_progress_line w line now_us := rfl
  rw [hcb]
  refine ⟨?_, ?_, ?_, ?_, ?_, ?_⟩
  · intro h; rw [ytdlp_line_dl_eta w line now_us hpre, if_pos h]
  · intro h; rw [ytdlp_line_dl_eta w line now_us hpre, h]; rfl
  · exact ytdlp_line_fraction_fin w line now_us d t hpre hd ht
  · intro hpos hlt
    rw [ytdlp_line_fraction_fin w line now_us d t hpre hd ht hpos]
    have h1 : 1 ≤ d / t := by rw [le_div_iff₀ hpos]; linarith
    rw [min_eq_left h1]; norm_num
  · intro hpos hneg
    rw [ytdlp_line_fraction_fin w line now_us d t hpre hd ht hpos]
    have h1 : d / t ≤ 0 := div_nonpos_of_nonpos_of_nonneg hneg.le hpos.le
    rw [min_eq_right (le_trans h1 (by norm_num)), max_eq_left h1]
  · intro hle
    rw [ytdlp_line_dl_progress w line now_us hpre, ht]
    have hgt : GDouble.gt (fin t) (fin 0) = false := by
      simp [GDouble.gt, GDouble.lt, hle]
    rw [hgt]; rfl

/-- C2 on the progress line of scenario B: 500 of 1000 bytes, 10 seconds left. -/
theorem C2_download_progress_witness :
    (ytdlp_progress_cb sample_download io_in
        (ReadLine.normal "progress:[downloaded=500 total=1000 eta=10]\n") 3000000).1.dl_eta_sec
      = fin 10 ∧
    (ytdlp_progress_cb sample_download io_in
        (ReadLine.normal "progress:[downloaded=500 total=1000 eta=10]\n") 3000000).1.dl_progress_0_1
      = fin (1 / 2) := by
  have hd : token_value "progress:[downloaded=500 total=1000 eta=10]\n" "downloaded=" = fin 500 := by
    rw [token_value_of_scan _ _ (Scanned.dec false 500 0) (by decide), value_dec_nat _ (by norm_num)]
    norm_num
  have ht : token_value "progress:[downloaded=500 total=1000 eta=10]\n" "total=" = fin 1000 := by
    rw [token_value_of_scan _ _ (Scanned.dec false 1000 0) (by decide), value_dec_nat _ (by norm_num)]
    norm_num
  have he : token_value "progress:[downloaded=500 total=1000 eta=10]\n" "eta=" = fin 10 := by
    rw [token_value_of_scan _ _ (Scanned.dec false 10 0) (by decide), value_dec_nat _ (by norm_num)]
    norm_num
  have h := C2_download_progress_update sample_download
    "progress:[downloaded=500 total=1000 eta=10]\n" 3000000 500 1000 (by decide) hd ht
  refine ⟨?_, ?_⟩
  · rw [h.1 (by rw [he]; simp [GDouble.gt, GDouble.lt]), he]
  · rw [h.2.2.1 (by norm_num)]
    norm_num

/-! ## C3: cancellation precedence -/

/-- C3. For every exit status, when cancellation has been requested both exit
handlers report `Canceled.` with the bar reset to 0, never a failure or a
completion, and the downloader-exit handler neither advances the phase nor
launches the transcoder. -/
theorem C3_cancellation_precedence (w : AppWidgets) (status : Nat)
    (ffprobe fs : Option String) (spawn : SpawnResult) (now_us : Int)
    (hc : w.cancel_requested = true) :
    ((child_watch_ytdlp w status ffprobe fs spawn now_us).status_label = "Canceled." ∧
      (child_watch_ytdlp w status ffprobe fs spawn now_us).progress_bar = fin 0 ∧
      (child_watch_ytdlp w status ffprobe fs spawn now_us).status_label ≠ "Download failed." ∧
      (child_watch_ytdlp w status ffprobe fs spawn now_us).phase = w.phase ∧
      (child_watch_ytdlp w status ffprobe fs spawn now_us).calls = w.calls ∧
      (child_watch_ytdlp w status ffprobe fs spawn now_us).ffmpeg_pid = w.ffmpeg_pid ∧
      (child_watch_ytdlp w status ffprobe fs spawn now_us).ff_io = w.ff_io) ∧
    ((child_watch_ffmpeg w status).status_label = "Canceled." ∧
      (child_watch_ffmpeg w status).progress_bar = fin 0 ∧
      (child_watch_ffmpeg w status).status_label ≠ "Conversion failed." ∧
      (child_watch_ffmpeg w status).status_label ≠ "Conversion finished.") := by
  have hy : child_watch_ytdlp w status ffprobe fs spawn now_us =
      { w with yt_io := none, yt_pid := 0, status_label := "Canceled.", progress_bar := fin 0 } := by
    simp [child_watch_ytdlp, hc]
  have hf : child_watch_ffmpeg w status =
      { w with ff_io := none, ffmpeg_pid := 0, status_label := "Canceled.", progress_bar := fin 0 } := by
    simp [child_watch_ffmpeg, hc]
  rw [hy, hf]
  have hne : ∀ s : String, "Canceled." ≠ s → ("Canceled." : String) ≠ s := fun _ h => h
  exact ⟨⟨rfl, rfl, hne _ (by decide), rfl, rfl, rfl, rfl⟩, rfl, rfl, hne _ (by decide),
    hne _ (by decide)⟩

/-- C3 on a download that was canceled and whose process then exits cleanly
(status 0). -/
theorem C3_cancellation_precedence_witness :
    (cancel_running sample_download).cancel_requested = true ∧
    (child_watch_ytdlp (cancel_running sample_download) 0 (some "40.0") none
      (SpawnResult.ok 4005 9) 5000000).status_label = "Canceled." ∧
    (child_watch_ytdlp (cancel_running sample_download) 0 (some "40.0") none
      (SpawnResult.ok 4005 9) 5000000).phase = Phase.PHASE_DOWNLOADING ∧
    (child_watch_ffmpeg (cancel_running sample_download) 0).status_label = "Canceled." :=
  have h := C3_cancellation_precedence (cancel_running sample_download) 0 (some "40.0") none
    (SpawnResult.ok 4005 9) 5000000 rfl
  ⟨rfl, h.1.1, h.1.2.2.2.1, h.2.1⟩

/-! ## C4: a submission while a job is live -/

/-- C4. Evaluation at the failing inputs. With the transcoder live as process
4002, a submission of a video URL is not rejected: `on_convert_clicked` goes
to `start_ytdlp`, which launches the downloader as a second process and resets
the model of the running job (phase, start instant, transcode estimate,
transcode fraction). A submission of a local file is refused by
`start_ffmpeg_conversion` without a launch, but only after the total media
duration of the running job has been overwritten by the probe of the new
input. -/
theorem C4_submission_while_live :
    sample_live_url.ffmpeg_pid = 4002 ∧
    (on_convert_clicked sample_live_url none none 9000000 (SpawnResult.ok 4003 9)).yt_pid = 4003 ∧
    (on_convert_clicked sample_live_url none none 9000000 (SpawnResult.ok 4003 9)).ffmpeg_pid
      = 4002 ∧
    (on_convert_clicked sample_live_url none none 9000000 (SpawnResult.ok 4003 9)).calls
      = sample_live_url.calls ++
        [Call.unlink YTDLP_TMP_FILE, Call.spawn (ytdlp_argv "https://youtu.be/abc"),
         Call.io_add_watch 9 WatchFunc.ytdlp_progress_cb true,
         Call.child_watch_add 4003 ChildFunc.child_watch_ytdlp] ∧
    sample_live_url.phase = Phase.PHASE_TRANSCODING ∧
    (on_convert_clicked sample_live_url none none 9000000 (SpawnResult.ok 4003 9)).phase
      = Phase.PHASE_DOWNLOADING ∧
    sample_live_url.t_start_us = 1000000 ∧
    (on_convert_clicked sample_live_url none none 9000000 (SpawnResult.ok 4003 9)).t_start_us
      = 9000000 ∧
    sample_live_url.tx_eta_sec = fin 30 ∧
    (on_convert_clicked sample_live_url none none 9000000 (SpawnResult.ok 4003 9)).tx_eta_sec
      = fin 0 ∧
    sample_live_url.tx_progress_0_1 = fin (1 / 2) ∧
    (on_convert_clicked sample_live_url none none 9000000 (SpawnResult.ok 4003 9)).tx_progress_0_1
      = fin 0 ∧
    (on_convert_clicked sample_live_local none (some "40") 9000000 (SpawnResult.ok 4003 9)).status_label
      = "A job is already running." ∧
    (on_convert_clicked sample_live_local none (some "40") 9000000 (SpawnResult.ok 4003 9)).calls
      = sample_live_local.calls ∧
    sample_live_local.total_duration = fin 120 ∧
    (on_convert_clicked sample_live_local none (some "40") 9000000 (SpawnResult.ok 4003 9)).total_duration
      = fin 40 := by
  have hprobe : get_media_duration (some "b.mov") (some "40") = fin 40 := by
    have hs : scanNumber (cstr "40".data) = Scanned.dec false 40 0 := by decide
    have hv : g_ascii_strtod (cstr "40".data) = fin 40 := by
      rw [g_ascii_strtod, hs, value_dec_nat _ (by norm_num)]; norm_num
    simp [get_media_duration, hv, GDouble.gt, GDouble.lt]
  refine ⟨by decide, by decide, by decide, rfl, by decide, by decide, by decide, by decide,
    rfl, rfl, rfl, rfl, by decide, rfl, rfl, ?_⟩
  exact hprobe


/-! ## C5: the output extension -/

/-- A path with the extension appended ends with the extension. -/
theorem has_suffix_append (p ext : String) :
    g_str_has_suffix (p ++ ext).data ext.data = true := by
  simp [g_str_has_suffix]

/-- C5. `append_extension_if_missing` is idempotent: for every path and every
format (the six known ones, any unknown one, and `NULL` for either argument)
applying it twice with the same format gives what applying it once gives, and
a path that already ends with the extension of the format comes back
unchanged. -/
theorem C5_append_extension_idempotent :
    (∀ path format : Option String,
      append_extension_if_missing (append_extension_if_missing path format) format
        = append_extension_if_missing path format) ∧
    (∀ path format : String,
      g_str_has_suffix path.data (format_ext format).data = true →
        append_extension_if_missing (some path) (some format) = some path) := by
  constructor
  · intro path format
    cases path with
    | none => rfl
    | some p =>
      cases format with
      | none => rfl
      | some f =>
        simp only [append_extension_if_missing]
        by_cases h1 : format_ext f = ""
        · simp [h1]
        · by_cases h2 : g_str_has_suffix p.data (format_ext f).data = true
          · simp [h1, h2]
          · have h3 := has_suffix_append p (format_ext f)
            simp only [h1, h2, if_false, Bool.false_eq_true, h3, if_true]
  · intro path format h
    simp only [append_extension_if_missing]
    by_cases h1 : format_ext format = ""
    · simp [h1]
    · simp [h1, h]

/-- C5 on the path `clip.mp4` and the format MP4, and on `clip` applied twice. -/
theorem C5_append_extension_witness :
    g_str_has_suffix "clip.mp4".data (format_ext "MP4").data = true ∧
    append_extension_if_missing (some "clip.mp4") (some "MP4") = some "clip.mp4" ∧
    append_extension_if_missing (append_extension_if_missing (some "clip") (some "MP4")) (some "MP4")
      = some "clip.mp4" :=
  ⟨by decide, C5_append_extension_idempotent.2 "clip.mp4" "MP4" (by decide),
    (C5_append_extension_idempotent.1 (some "clip") (some "MP4")).trans (by decide)⟩


/-! ## The transcode-progress parser -/

/-- A line that begins with `speed=` does not begin with `out_time_ms=`. -/
theorem speed_not_out_time (p : List Char)
    (h : g_str_has_prefix p "speed=".data = true) :
    g_str_has_prefix p "out_time_ms=".data = false := by
  cases p with
  | nil => simp [ g_str_has_prefix] at h
  | cons c cs =>
    have h2 : ("speed=".data).isPrefixOf (c :: cs) = true := h
    simp only [List.isPrefixOf, Bool.and_eq_true, beq_iff_eq] at h2
    have hc : c = 's' := h2.1.symm
    subst hc
    simp [ g_str_has_prefix, List.isPrefixOf]

/-- The remaining estimate written by an `out_time_ms=` line. -/
theorem ffmpeg_out_time_tx_eta (w : AppWidgets) (line : String) (now_us : Int)
    (hpre : g_str_has_prefix (cstr line.data) "out_time_ms=".data = true) :
    (ffmpeg_progress_line w line now_us).tx_eta_sec =
      (if GDouble.gt w.total_duration (fin 0) then
        GDouble.div
          (if GDouble.lt (GDouble.sub w.total_duration
                (GDouble.div (g_ascii_strtod ((cstr line.data).drop 12)) (fin 1000000))) (fin 0)
            then fin 0
            else GDouble.sub w.total_duration
                (GDouble.div (g_ascii_strtod ((cstr line.data).drop 12)) (fin 1000000)))
          (fin 1)
      else w.tx_eta_sec) := by
  simp only [ffmpeg_progress_line, hpre, if_true]
  split_ifs <;> rfl

/-- The transcode fraction written by an `out_time_ms=` line. -/
theorem ffmpeg_out_time_tx_progress (w : AppWidgets) (line : String) (now_us : Int)
    (hpre : g_str_has_prefix (cstr line.data) "out_time_ms=".data = true) :
    (ffmpeg_progress_line w line now_us).tx_progress_0_1 =
      (if GDouble.gt w.total_duration (fin 0) then
        (if GDouble.gt
            (if GDouble.lt
                (GDouble.div (GDouble.div (g_ascii_strtod ((cstr line.data).drop 12)) (fin 1000000))
                  w.total_duration) (fin 0)
              then fin 0
              else GDouble.div (GDouble.div (g_ascii_strtod ((cstr line.data).drop 12)) (fin 1000000))
                  w.total_duration)
            (fin 1) then fin 1
          else
            (if GDouble.lt
                (GDouble.div (GDouble.div (g_ascii_strtod ((cstr line.data).drop 12)) (fin 1000000))
                  w.total_duration) (fin 0)
              then fin 0
              else GDouble.div (GDouble.div (g_ascii_strtod ((cstr line.data).drop 12)) (fin 1000000))
                  w.total_duration))
      else w.tx_progress_0_1) := by
  simp only [ffmpeg_progress_line, hpre, if_true]
  split_ifs <;> rfl

/-- The remaining estimate written by a `speed=` line. -/
theorem ffmpeg_speed_tx_eta (w : AppWidgets) (line : String) (now_us : Int)
    (hpre : g_str_has_prefix (cstr line.data) "speed=".data = true) :
    (ffmpeg_progress_line w line now_us).tx_eta_sec =
      (if GDouble.gt w.total_duration (fin 0) then
        GDouble.div
          (if GDouble.lt (GDouble.sub w.total_duration
                (GDouble.mul w.tx_progress_0_1 w.total_duration)) (fin 0)
            then fin 0
            else GDouble.sub w.total_duration (GDouble.mul w.tx_progress_0_1 w.total_duration))
          (if GDouble.lt (g_ascii_strtod ((cstr line.data).drop 6)) (fin (1 / 10)) then fin (1 / 10)
            else g_ascii_strtod ((cstr line.data).drop 6))
      else w.tx_eta_sec) := by
  simp only [ffmpeg_progress_line, speed_not_out_time _ hpre, hpre, if_true, Bool.false_eq_true,
    if_false]
  split_ifs <;> rfl

/-- What a transcoder line leaves alone: the fraction on a `speed=` line, and
the duration, the phase and the download fields on every line. -/
theorem ffmpeg_line_unchanged (w : AppWidgets) (line : String) (now_us : Int) :
    (ffmpeg_progress_line w line now_us).total_duration = w.total_duration ∧
    (ffmpeg_progress_line w line now_us).phase = w.phase ∧
    (ffmpeg_progress_line w line now_us).dl_eta_sec = w.dl_eta_sec ∧
    (ffmpeg_progress_line w line now_us).dl_progress_0_1 = w.dl_progress_0_1 ∧
    ( g_str_has_prefix (cstr line.data) "out_time_ms=".data = false →
      (ffmpeg_progress_line w line now_us).tx_progress_0_1 = w.tx_progress_0_1) := by
  simp only [ffmpeg_progress_line]
  refine ⟨?_, ?_, ?_, ?_, ?_⟩
  · split_ifs <;> rfl
  · split_ifs <;> rfl
  · split_ifs <;> rfl
  · split_ifs <;> rfl
  · intro h
    simp only [h, Bool.false_eq_true, if_false]
    split_ifs <;> rfl

/-- An `out_time_ms=` line when the duration is a known finite number. -/
theorem ffmpeg_out_time_fields (w : AppWidgets) (line : String) (now_us : Int) (D N : ℚ)
    (hpre : g_str_has_prefix (cstr line.data) "out_time_ms=".data = true)
    (hD : w.total_duration = fin D) (hpos : 0 < D)
    (hN : g_ascii_strtod ((cstr line.data).drop 12) = fin N) :
    (ffmpeg_progress_line w line now_us).tx_eta_sec = fin (max 0 (D - N / 1000000)) ∧
    (ffmpeg_progress_line w line now_us).tx_progress_0_1
      = fin (max 0 (min 1 (N / 1000000 / D))) := by
  have hgt : GDouble.gt (fin D) (fin 0) = true := by simp [GDouble.gt, GDouble.lt, hpos]
  have hne : D ≠ 0 := ne_of_gt hpos
  have hE : GDouble.div (fin N) (fin 1000000) = fin (N / 1000000) := by
    simp [GDouble.div]
  have hsub : GDouble.sub (fin D) (fin (N / 1000000)) = fin (D - N / 1000000) := by
    simp [GDouble.sub, GDouble.neg, GDouble.add, sub_eq_add_neg]
  have hdiv : GDouble.div (fin (N / 1000000)) (fin D) = fin (N / 1000000 / D) := by
    simp [GDouble.div, hne]
  constructor
  · rw [ffmpeg_out_time_tx_eta w line now_us hpre, hD, hN, if_pos hgt, hE, hsub]
    by_cases h : D - N / 1000000 < 0
    · simp [GDouble.lt, h, GDouble.div, max_eq_left h.le]
    · simp [GDouble.lt, h, GDouble.div, max_eq_right (not_lt.mp h)]
  · rw [ffmpeg_out_time_tx_progress w line now_us hpre, hD, hN, if_pos hgt, hE, hdiv, clamp_fin]

/-- A `speed=` line when the duration and the last fraction are finite numbers. -/
theorem ffmpeg_speed_fields (w : AppWidgets) (line : String) (now_us : Int) (D P F : ℚ)
    (hpre : g_str_has_prefix (cstr line.data) "speed=".data = true)
    (hD : w.total_duration = fin D) (hpos : 0 < D)
    (hP : w.tx_progress_0_1 = fin P)
    (hF : g_ascii_strtod ((cstr line.data).drop 6) = fin F) :
    (ffmpeg_progress_line w line now_us).tx_eta_sec
      = fin (max 0 (D - P * D) / max F (1 / 10)) := by
  have hgt : GDouble.gt (fin D) (fin 0) = true := by simp [GDouble.gt, GDouble.lt, hpos]
  have hmul : GDouble.mul (fin P) (fin D) = fin (P * D) := rfl
  have hsub : GDouble.sub (fin D) (fin (P * D)) = fin (D - P * D) := by
    simp [GDouble.sub, GDouble.neg, GDouble.add, sub_eq_add_neg]
  have hsp : (if GDouble.lt (fin F) (fin (1 / 10)) then fin (1 / 10) else fin F)
      = fin (max F (1 / 10)) := by
    by_cases h : F < 1 / 10
    · simp only [GDouble.lt, decide_eq_true h, if_true, max_eq_right h.le]
    · simp only [GDouble.lt, decide_eq_false h, Bool.false_eq_true, if_false,
        max_eq_left (not_lt.mp h)]
  have hrem : (if GDouble.lt (fin (D - P * D)) (fin 0) then fin 0 else fin (D - P * D))
      = fin (max 0 (D - P * D)) := by
    by_cases h : D - P * D < 0
    · simp only [GDouble.lt, decide_eq_true h, if_true, max_eq_left h.le]
    · simp only [GDouble.lt, decide_eq_false h, Bool.false_eq_true, if_false,
        max_eq_right (not_lt.mp h)]
  have hspne : max F (1 / 10) ≠ 0 := by
    have : (0 : ℚ) < max F (1 / 10) := lt_of_lt_of_le (by norm_num) (le_max_right _ _)
    exact ne_of_gt this
  rw [ffmpeg_speed_tx_eta w line now_us hpre, hD, hP, hF, if_pos hgt, hmul, hsub, hsp, hrem]
  simp only [GDouble.div, if_neg hspne]


/-- Reading transcoder lines never changes the total duration. -/
theorem feed_ffmpeg_total_duration (lines : List (String × Int)) (w : AppWidgets) :
    (feed_ffmpeg w lines).total_duration = w.total_duration := by
  induction lines generalizing w with
  | nil => rfl
  | cons l ls ih =>
    have hstep : feed_ffmpeg w (l :: ls) = feed_ffmpeg (ffmpeg_progress_line w l.1 l.2) ls := rfl
    rw [hstep, ih, (ffmpeg_line_unchanged w l.1 l.2).1]

/-- The scanned numbers of the sample transcoder lines. -/
theorem sample_line_values :
    g_ascii_strtod ((cstr "out_time_ms=60000000\n".data).drop 12) = fin 60000000 ∧
    g_ascii_strtod ((cstr "speed=2.0x\n".data).drop 6) = fin 2 ∧
    g_ascii_strtod ((cstr "out_time_ms=30000000\n".data).drop 12) = fin 30000000 ∧
    g_ascii_strtod ((cstr "speed=0.05x\n".data).drop 6) = fin (1 / 20) := by
  have h1 : scanNumber ((cstr "out_time_ms=60000000\n".data).drop 12)
      = Scanned.dec false 60000000 0 := by decide
  have h2 : scanNumber ((cstr "speed=2.0x\n".data).drop 6) = Scanned.dec false 20 (-1) := by decide
  have h3 : scanNumber ((cstr "out_time_ms=30000000\n".data).drop 12)
      = Scanned.dec false 30000000 0 := by decide
  have h4 : scanNumber ((cstr "speed=0.05x\n".data).drop 6) = Scanned.dec false 5 (-2) := by decide
  have hb : ∀ q : ℚ, 1 / 1000 ≤ q → q < 2 ^ 64 → ofRatRange q = fin q := by
    intro q h0 h1
    have hb : (2 : ℚ) ^ 64 < overflowBound := by unfold overflowBound; norm_num
    have hu : underflowBound < 1 / 1000 := by unfold underflowBound; norm_num
    have h2 : ¬ overflowBound ≤ q := not_le.mpr (lt_trans h1 hb)
    have h3 : ¬ q ≤ -overflowBound := by intro h; linarith
    have h4 : ¬ |q| ≤ underflowBound := by
      rw [abs_of_nonneg (by linarith)]
      intro h; linarith
    simp [ofRatRange, h2, h3, h4]
  refine ⟨?_, ?_, ?_, ?_⟩
  · rw [g_ascii_strtod, h1, value_dec_nat _ (by norm_num)]; norm_num
  · rw [g_ascii_strtod, h2]
    simp only [Scanned.value]
    rw [hb _ (by norm_num) (by norm_num)]; norm_num
  · rw [g_ascii_strtod, h3, value_dec_nat _ (by norm_num)]; norm_num
  · rw [g_ascii_strtod, h4]
    simp only [Scanned.value]
    rw [hb _ (by norm_num) (by norm_num)]; norm_num

/-- An `out_time_ms=` line and then a `speed=` line, the duration known. -/
theorem time_then_speed (w : AppWidgets) (line1 line2 : String) (now1 now2 : Int) (D N F : ℚ)
    (hD : w.total_duration = fin D) (hpos : 0 < D)
    (hpre1 : g_str_has_prefix (cstr line1.data) "out_time_ms=".data = true)
    (hN : g_ascii_strtod ((cstr line1.data).drop 12) = fin N)
    (h0 : 0 ≤ N / 1000000) (h1 : N / 1000000 ≤ D)
    (hpre2 : g_str_has_prefix (cstr line2.data) "speed=".data = true)
    (hF : g_ascii_strtod ((cstr line2.data).drop 6) = fin F) :
    (ffmpeg_progress_line (ffmpeg_progress_line w line1 now1) line2 now2).tx_progress_0_1
      = fin (N / 1000000 / D) ∧
    (ffmpeg_progress_line (ffmpeg_progress_line w line1 now1) line2 now2).tx_eta_sec
      = fin ((D - N / 1000000) / max F (1 / 10)) := by
  have hne : D ≠ 0 := ne_of_gt hpos
  have hfr0 : 0 ≤ N / 1000000 / D := div_nonneg h0 hpos.le
  have hfr1 : N / 1000000 / D ≤ 1 := by rw [div_le_one hpos]; exact h1
  have hfirst := ffmpeg_out_time_fields w line1 now1 D N hpre1 hD hpos hN
  have hP : (ffmpeg_progress_line w line1 now1).tx_progress_0_1 = fin (N / 1000000 / D) := by
    rw [hfirst.2, min_eq_right hfr1, max_eq_right hfr0]
  have hD1 : (ffmpeg_progress_line w line1 now1).total_duration = fin D := by
    rw [(ffmpeg_line_unchanged w line1 now1).1, hD]
  constructor
  · rw [(ffmpeg_line_unchanged _ line2 now2).2.2.2.2 (speed_not_out_time _ hpre2), hP]
  · rw [ffmpeg_speed_fields _ line2 now2 D (N / 1000000 / D) F hpre2 hD1 hpos hP hF]
    have hmul : N / 1000000 / D * D = N / 1000000 := div_mul_cancel₀ _ hne
    rw [hmul, max_eq_right (by linarith)]

/-! ## Facts about binary64 rounding -/

/-- A rational within less than a half of an integer rounds to that integer. -/
theorem roundHalfEven_of_near (m : ℚ) (n : ℤ) (h : |m - n| < 1 / 2) : roundHalfEven m = n := by
  rw [abs_lt] at h
  obtain ⟨h1, h2⟩ := h
  by_cases hle : (n : ℚ) ≤ m
  · have hf : ⌊m⌋ = n := by
      rw [Int.floor_eq_iff]; constructor
      · exact hle
      · linarith
    have hlt : m - (⌊m⌋ : ℚ) < 1 / 2 := by rw [hf]; linarith
    unfold roundHalfEven
    rw [if_pos hlt]
    exact hf
  · have hlt : m < n := not_le.mp hle
    have hf : ⌊m⌋ = n - 1 := by
      rw [Int.floor_eq_iff]; push_cast; constructor
      · linarith
      · linarith
    have hn1 : ¬ m - (⌊m⌋ : ℚ) < 1 / 2 := by rw [hf]; push_cast; linarith
    have hn2 : 1 / 2 < m - (⌊m⌋ : ℚ) := by rw [hf]; push_cast; linarith
    unfold roundHalfEven
    rw [if_neg hn1, if_pos hn2, hf]
    ring

/-- Rounding to an integer never goes below the floor, so not below 0 for a
non-negative argument. -/
theorem roundHalfEven_nonneg (m : ℚ) (h : 0 ≤ m) : 0 ≤ roundHalfEven m := by
  have hf : 0 ≤ ⌊m⌋ := Int.floor_nonneg.mpr h
  unfold roundHalfEven
  split_ifs <;> omega

/-- Rounding to an integer never passes an integer bound. -/
theorem roundHalfEven_le (m : ℚ) (k : ℤ) (h : m ≤ k) : roundHalfEven m ≤ k := by
  have hf : ⌊m⌋ ≤ k := Int.floor_le_iff.mpr (by linarith)
  have key : ¬ m - (⌊m⌋ : ℚ) < 1 / 2 → ⌊m⌋ + 1 ≤ k := by
    intro hn
    have h1 : (⌊m⌋ : ℚ) < m := by linarith
    have h2 : (⌊m⌋ : ℚ) < (k : ℚ) := lt_of_lt_of_le h1 h
    have h3 : ⌊m⌋ < k := by exact_mod_cast h2
    omega
  unfold roundHalfEven
  split_ifs with h1 h2 h3
  · exact hf
  · exact key h1
  · exact hf
  · exact key h1

/-- The spacing around a positive `q` with `2^e <= q < 2^(e+1)`, `e` a normal
exponent. -/
theorem ulp64_eq (q : ℚ) (e : ℤ) (hlo : (2 : ℚ) ^ e ≤ q) (hhi : q < (2 : ℚ) ^ (e + 1))
    (he : -1022 ≤ e) : ulp64 q = (2 : ℚ) ^ (e - 52) := by
  have hpos : 0 < q := lt_of_lt_of_le (by positivity) hlo
  have hlog : Int.log 2 |q| = e := by
    rw [abs_of_pos hpos]
    have h1 : e ≤ Int.log 2 q := by
      rw [← Int.zpow_le_iff_le_log (by norm_num) hpos]
      exact_mod_cast hlo
    have h2 : Int.log 2 q < e + 1 := by
      rw [← Int.lt_zpow_iff_log_lt (by norm_num) hpos]
      exact_mod_cast hhi
    omega
  unfold ulp64
  rw [hlog, max_eq_left he]

/-- The double nearest to a positive `q` with `2^e <= q < 2^(e+1)` is
`n * 2^(e-52)` when `q / 2^(e-52)` is within less than a half of `n`. -/
theorem round64_eq (q : ℚ) (e n : ℤ) (hlo : (2 : ℚ) ^ e ≤ q) (hhi : q < (2 : ℚ) ^ (e + 1))
    (he : -1022 ≤ e) (hn : |q / (2 : ℚ) ^ (e - 52) - n| < 1 / 2) :
    round64 q = (n : ℚ) * (2 : ℚ) ^ (e - 52) := by
  have hpos : 0 < q := lt_of_lt_of_le (by positivity) hlo
  unfold round64
  rw [if_neg (ne_of_gt hpos), ulp64_eq q e hlo hhi he, roundHalfEven_of_near _ n hn]

/-- A value in `[0, 1]` rounds to a double in `[0, 1]`. -/
theorem round64_unit (x : ℚ) (h0 : 0 ≤ x) (h1 : x ≤ 1) : 0 ≤ round64 x ∧ round64 x ≤ 1 := by
  unfold round64
  by_cases hx : x = 0
  · rw [if_pos hx]; exact ⟨le_refl _, by norm_num⟩
  · rw [if_neg hx]
    have hpos : 0 < x := lt_of_le_of_ne h0 (Ne.symm hx)
    have hu : 0 < ulp64 x := by unfold ulp64; positivity
    have hlog : Int.log 2 |x| ≤ 0 := by
      rw [abs_of_pos hpos]
      have : Int.log 2 x < 1 := by
        rw [← Int.lt_zpow_iff_log_lt (by norm_num) hpos]
        norm_num; linarith
      omega
    constructor
    · exact mul_nonneg (by exact_mod_cast roundHalfEven_nonneg _ (div_nonneg h0 hu.le)) hu.le
    · -- 1 / ulp is the integer 2 ^ (52 - e)
      set e := max (Int.log 2 |x|) (-1022) with he
      have he0 : e ≤ 0 := max_le hlog (by norm_num)
      have hk : ∃ k : ℕ, 52 - e = (k : ℤ) := ⟨(52 - e).toNat, by omega⟩
      obtain ⟨k, hk⟩ := hk
      have hulp : ulp64 x = ((2 : ℚ) ^ k)⁻¹ := by
        unfold ulp64
        rw [← he, ← zpow_natCast, ← hk, ← zpow_neg]
        congr 1; ring
      have hle : x / ulp64 x ≤ (((2 : ℤ) ^ k : ℤ) : ℚ) := by
        rw [hulp]; push_cast
        rw [div_inv_eq_mul]
        have : (0 : ℚ) < 2 ^ k := by positivity
        nlinarith
      have hr := roundHalfEven_le _ _ hle
      have hr2 : (roundHalfEven (x / ulp64 x) : ℚ) ≤ (2 : ℚ) ^ k := by exact_mod_cast hr
      rw [hulp] at hr2 ⊢
      have hp : (0 : ℚ) < 2 ^ k := by positivity
      rw [← div_eq_mul_inv, div_le_one hp]
      exact hr2

/-- A positive value of the form `n * 2^(e-52)` with `2^e <= q < 2^(e+1)` is a
double: rounding leaves it as it is. -/
theorem binary64_exact (q : ℚ) (e n : ℤ) (hlo : (2 : ℚ) ^ e ≤ q) (hhi : q < (2 : ℚ) ^ (e + 1))
    (he : -1022 ≤ e) (hq : q = (n : ℚ) * (2 : ℚ) ^ (e - 52)) (hmax : q < 2 ^ 64) :
    binary64 q = fin q := by
  have hpos : 0 < q := lt_of_lt_of_le (by positivity) hlo
  have hb : (2 : ℚ) ^ 64 < overflowBound := by unfold overflowBound; norm_num
  have h2 : ¬ overflowBound ≤ q := not_le.mpr (lt_trans hmax hb)
  have h3 : ¬ q ≤ -overflowBound := by intro h; linarith
  have hu : (0 : ℚ) < (2 : ℚ) ^ (e - 52) := by positivity
  have hn : |q / (2 : ℚ) ^ (e - 52) - n| < 1 / 2 := by
    have : q / (2 : ℚ) ^ (e - 52) = n := by
      rw [hq]; field_simp
    rw [this]; simp
  unfold binary64
  rw [if_neg h2, if_neg h3, round64_eq q e n hlo hhi he hn, ← hq]

/-- A value in `[0, 1]` becomes a finite double in `[0, 1]`. -/
theorem binary64_unit (x : ℚ) (h0 : 0 ≤ x) (h1 : x ≤ 1) :
    binary64 x = fin (round64 x) ∧ 0 ≤ round64 x ∧ round64 x ≤ 1 := by
  have hb : (1 : ℚ) < overflowBound := by unfold overflowBound; norm_num
  have h2 : ¬ overflowBound ≤ x := by intro h; linarith
  have h3 : ¬ x ≤ -overflowBound := by intro h; linarith
  refine ⟨?_, round64_unit x h0 h1⟩
  unfold binary64
  rw [if_neg h2, if_neg h3]

/-- The literal `0.1` as a double, and the speed raised to it. -/
theorem speed_clamp_b64 (F : ℚ) :
    binary64 (1 / 10) = fin (round64 (1 / 10)) ∧ round64 (1 / 10) ≤ 1 ∧
    (if GDouble.lt (fin F) (binary64 (1 / 10)) then binary64 (1 / 10) else fin F)
      = fin (max F (round64 (1 / 10))) := by
  have h := binary64_unit (1 / 10) (by norm_num) (by norm_num)
  refine ⟨h.1, h.2.2, ?_⟩
  rw [h.1]
  by_cases hF : F < round64 (1 / 10)
  · simp only [GDouble.lt, decide_eq_true hF, if_true, max_eq_right hF.le]
  · simp only [GDouble.lt, decide_eq_false hF, Bool.false_eq_true, if_false,
      max_eq_left (not_lt.mp hF)]

/-! ## The transcode-progress parser over binary64 -/

/-- The transcode fraction written by an `out_time_ms=` line, with rounding. -/
theorem ffmpeg_b64_out_time_tx_progress (w : AppWidgets) (line : String) (now_us : Int)
    (hpre : g_str_has_prefix (cstr line.data) "out_time_ms=".data = true) :
    (ffmpeg_progress_line_b64 w line now_us).tx_progress_0_1 =
      (if GDouble.gt w.total_duration (fin 0) then
        (if GDouble.gt
            (if GDouble.lt
                (div_b64 (div_b64 (g_ascii_strtod_b64 ((cstr line.data).drop 12)) (fin 1000000))
                  w.total_duration) (fin 0)
              then fin 0
              else div_b64 (div_b64 (g_ascii_strtod_b64 ((cstr line.data).drop 12)) (fin 1000000))
                  w.total_duration)
            (fin 1) then fin 1
          else
            (if GDouble.lt
                (div_b64 (div_b64 (g_ascii_strtod_b64 ((cstr line.data).drop 12)) (fin 1000000))
                  w.total_duration) (fin 0)
              then fin 0
              else div_b64 (div_b64 (g_ascii_strtod_b64 ((cstr line.data).drop 12)) (fin 1000000))
                  w.total_duration))
      else w.tx_progress_0_1) := by
  simp only [ffmpeg_progress_line_b64, hpre, if_true]
  split_ifs <;> rfl

/-- The remaining estimate written by a `speed=` line, with rounding. -/
theorem ffmpeg_b64_speed_tx_eta (w : AppWidgets) (line : String) (now_us : Int)
    (hpre : g_str_has_prefix (cstr line.data) "speed=".data = true) :
    (ffmpeg_progress_line_b64 w line now_us).tx_eta_sec =
      (if GDouble.gt w.total_duration (fin 0) then
        div_b64
          (nonneg_part (sub_b64 w.total_duration (mul_b64 w.tx_progress_0_1 w.total_duration)))
          (if GDouble.lt (g_ascii_strtod_b64 ((cstr line.data).drop 6)) (binary64 (1 / 10))
            then binary64 (1 / 10)
            else g_ascii_strtod_b64 ((cstr line.data).drop 6))
      else w.tx_eta_sec) := by
  simp only [ffmpeg_progress_line_b64, speed_not_out_time _ hpre, hpre, if_true,
    Bool.false_eq_true, if_false, nonneg_part]
  split_ifs <;> rfl

/-- What a transcoder line leaves alone, with rounding: the duration on every
line and the fraction on a line that is not a time line. -/
theorem ffmpeg_b64_line_unchanged (w : AppWidgets) (line : String) (now_us : Int) :
    (ffmpeg_progress_line_b64 w line now_us).total_duration = w.total_duration ∧
    ( g_str_has_prefix (cstr line.data) "out_time_ms=".data = false →
      (ffmpeg_progress_line_b64 w line now_us).tx_progress_0_1 = w.tx_progress_0_1) := by
  simp only [ffmpeg_progress_line_b64]
  refine ⟨?_, ?_⟩
  · split_ifs <;> rfl
  · intro h
    simp only [h, Bool.false_eq_true, if_false]
    split_ifs <;> rfl

/-- An `out_time_ms=` line and then a `speed=` line over binary64, the
duration known and the elapsed media time `e` (the double `N / 1e6`) within
`[0, D]`: the fraction is the double `e / D`, and the estimate is recomputed
from that fraction. -/
theorem time_then_speed_b64 (w : AppWidgets) (line1 line2 : String) (now1 now2 : Int)
    (D e F : ℚ)
    (hD : w.total_duration = fin D) (hpos : 0 < D)
    (hpre1 : g_str_has_prefix (cstr line1.data) "out_time_ms=".data = true)
    (he : div_b64 (g_ascii_strtod_b64 ((cstr line1.data).drop 12)) (fin 1000000) = fin e)
    (h0 : 0 ≤ e) (h1 : e ≤ D)
    (hpre2 : g_str_has_prefix (cstr line2.data) "speed=".data = true)
    (hF : g_ascii_strtod_b64 ((cstr line2.data).drop 6) = fin F) :
    (ffmpeg_progress_line_b64 (ffmpeg_progress_line_b64 w line1 now1) line2 now2).tx_progress_0_1
      = div_b64 (fin e) (fin D) ∧
    (ffmpeg_progress_line_b64 (ffmpeg_progress_line_b64 w line1 now1) line2 now2).tx_eta_sec
      = div_b64
          (nonneg_part (sub_b64 (fin D) (mul_b64 (div_b64 (fin e) (fin D)) (fin D))))
          (fin (max F (round64 (1 / 10)))) := by
  have hne : D ≠ 0 := ne_of_gt hpos
  have hgt : GDouble.gt (fin D) (fin 0) = true := by simp [GDouble.gt, GDouble.lt, hpos]
  have hfr0 : 0 ≤ e / D := div_nonneg h0 hpos.le
  have hfr1 : e / D ≤ 1 := by rw [div_le_one hpos]; exact h1
  have hu := binary64_unit (e / D) hfr0 hfr1
  have hdiv : div_b64 (fin e) (fin D) = fin (round64 (e / D)) := by
    simp only [div_b64, GDouble.div, if_neg hne, rnd]
    exact hu.1
  have hP : (ffmpeg_progress_line_b64 w line1 now1).tx_progress_0_1 = div_b64 (fin e) (fin D) := by
    rw [ffmpeg_b64_out_time_tx_progress w line1 now1 hpre1, hD, if_pos hgt, he, hdiv, clamp_fin,
      min_eq_right hu.2.2, max_eq_right hu.2.1]
  have hD1 : (ffmpeg_progress_line_b64 w line1 now1).total_duration = fin D := by
    rw [(ffmpeg_b64_line_unchanged w line1 now1).1, hD]
  constructor
  · rw [(ffmpeg_b64_line_unchanged _ line2 now2).2 (speed_not_out_time _ hpre2), hP]
  · rw [ffmpeg_b64_speed_tx_eta _ line2 now2 hpre2, hD1, if_pos hgt, hP, hF,
      (speed_clamp_b64 F).2.2]

/-- The double for a positive `q` with `2^e <= q < 2^(e+1)` is `n * 2^(e-52)`
when `q / 2^(e-52)` is within less than a half of `n`. -/
theorem binary64_eq (q : ℚ) (e n : ℤ) (hlo : (2 : ℚ) ^ e ≤ q) (hhi : q < (2 : ℚ) ^ (e + 1))
    (he : -1022 ≤ e) (hn : |q / (2 : ℚ) ^ (e - 52) - n| < 1 / 2) (hmax : q < 2 ^ 64) :
    binary64 q = fin ((n : ℚ) * (2 : ℚ) ^ (e - 52)) := by
  have hpos : 0 < q := lt_of_lt_of_le (by positivity) hlo
  have hb : (2 : ℚ) ^ 64 < overflowBound := by unfold overflowBound; norm_num
  have h2 : ¬ overflowBound ≤ q := not_le.mpr (lt_trans hmax hb)
  have h3 : ¬ q ≤ -overflowBound := by intro h; linarith
  unfold binary64
  rw [if_neg h2, if_neg h3, round64_eq q e n hlo hhi he hn]

/-- The rounded operations on finite values. -/
theorem b64_ops_fin (a b : ℚ) :
    mul_b64 (fin a) (fin b) = binary64 (a * b) ∧
    sub_b64 (fin a) (fin b) = binary64 (a - b) ∧
    (b ≠ 0 → div_b64 (fin a) (fin b) = binary64 (a / b)) ∧
    (0 ≤ a → nonneg_part (fin a) = fin a) := by
  refine ⟨rfl, ?_, ?_, ?_⟩
  · simp only [sub_b64, GDouble.sub, GDouble.neg, GDouble.add, rnd, sub_eq_add_neg]
  · intro hb
    simp only [div_b64, GDouble.div, if_neg hb, rnd]
  · intro ha
    simp only [nonneg_part, GDouble.lt, decide_eq_false (not_lt.mpr ha), Bool.false_eq_true,
      if_false]

/-- The numbers on the transcoder lines used below, as doubles. -/
theorem b64_line_values :
    g_ascii_strtod_b64 ((cstr "out_time_ms=10500000\n".data).drop 12) = fin 10500000 ∧
    g_ascii_strtod_b64 ((cstr "speed=1.0x\n".data).drop 6) = fin 1 ∧
    g_ascii_strtod_b64 ((cstr "out_time_ms=60000000\n".data).drop 12) = fin 60000000 ∧
    g_ascii_strtod_b64 ((cstr "speed=2.0x\n".data).drop 6) = fin 2 ∧
    g_ascii_strtod_b64 ((cstr "out_time_ms=20000000\n".data).drop 12) = fin 20000000 := by
  have h1 : scanNumber ((cstr "out_time_ms=10500000\n".data).drop 12)
      = Scanned.dec false 10500000 0 := by decide
  have h2 : scanNumber ((cstr "speed=1.0x\n".data).drop 6) = Scanned.dec false 10 (-1) := by decide
  have h3 : scanNumber ((cstr "out_time_ms=60000000\n".data).drop 12)
      = Scanned.dec false 60000000 0 := by decide
  have h4 : scanNumber ((cstr "speed=2.0x\n".data).drop 6) = Scanned.dec false 20 (-1) := by decide
  have h5 : scanNumber ((cstr "out_time_ms=20000000\n".data).drop 12)
      = Scanned.dec false 20000000 0 := by decide
  have v1 : (if false = true then (-1 : ℚ) else 1) * ((10500000 : ℕ) : ℚ) * (10 : ℚ) ^ (0 : ℤ)
      = 10500000 := by norm_num
  have v2 : (if false = true then (-1 : ℚ) else 1) * ((10 : ℕ) : ℚ) * (10 : ℚ) ^ (-1 : ℤ)
      = 1 := by norm_num
  have v3 : (if false = true then (-1 : ℚ) else 1) * ((60000000 : ℕ) : ℚ) * (10 : ℚ) ^ (0 : ℤ)
      = 60000000 := by norm_num
  have v4 : (if false = true then (-1 : ℚ) else 1) * ((20 : ℕ) : ℚ) * (10 : ℚ) ^ (-1 : ℤ)
      = 2 := by norm_num
  have v5 : (if false = true then (-1 : ℚ) else 1) * ((20000000 : ℕ) : ℚ) * (10 : ℚ) ^ (0 : ℤ)
      = 20000000 := by norm_num
  refine ⟨?_, ?_, ?_, ?_, ?_⟩
  · rw [g_ascii_strtod_b64, h1]
    simp only [Scanned.value_b64, v1]
    exact binary64_exact _ 23 5637144576000000 (by norm_num) (by norm_num) (by norm_num)
      (by norm_num) (by norm_num)
  · rw [g_ascii_strtod_b64, h2]
    simp only [Scanned.value_b64, v2]
    exact binary64_exact _ 0 4503599627370496 (by norm_num) (by norm_num) (by norm_num)
      (by norm_num) (by norm_num)
  · rw [g_ascii_strtod_b64, h3]
    simp only [Scanned.value_b64, v3]
    exact binary64_exact _ 25 8053063680000000 (by norm_num) (by norm_num) (by norm_num)
      (by norm_num) (by norm_num)
  · rw [g_ascii_strtod_b64, h4]
    simp only [Scanned.value_b64, v4]
    exact binary64_exact _ 1 4503599627370496 (by norm_num) (by norm_num) (by norm_num)
      (by norm_num) (by norm_num)
  · rw [g_ascii_strtod_b64, h5]
    simp only [Scanned.value_b64, v5]
    exact binary64_exact _ 24 5368709120000000 (by norm_num) (by norm_num) (by norm_num)
      (by norm_num) (by norm_num)

/-- Doubles that come up in the evaluations below. -/
theorem b64_values :
    binary64 (21 / 2) = fin (21 / 2) ∧
    binary64 (20 : ℚ) = fin 20 ∧
    binary64 (30 : ℚ) = fin 30 ∧
    binary64 (60 : ℚ) = fin 60 ∧
    binary64 (1 / 2) = fin (1 / 2) ∧
    binary64 (21 / 2 / 19) = fin (4977662746041075 / 9007199254740992) ∧
    binary64 (4977662746041075 / 9007199254740992 * 19)
      = fin (5910974510923777 / 562949953421312) ∧
    binary64 (4785074604081151 / 562949953421312)
      = fin (4785074604081151 / 562949953421312) := by
  refine ⟨?_, ?_, ?_, ?_, ?_, ?_, ?_, ?_⟩
  · exact binary64_exact _ 3 5910974510923776 (by norm_num) (by norm_num) (by norm_num)
      (by norm_num) (by norm_num)
  · exact binary64_exact _ 4 5629499534213120 (by norm_num) (by norm_num) (by norm_num)
      (by norm_num) (by norm_num)
  · exact binary64_exact _ 4 8444249301319680 (by norm_num) (by norm_num) (by norm_num)
      (by norm_num) (by norm_num)
  · exact binary64_exact _ 5 8444249301319680 (by norm_num) (by norm_num) (by norm_num)
      (by norm_num) (by norm_num)
  · exact binary64_exact _ (-1) 4503599627370496 (by norm_num) (by norm_num) (by norm_num)
      (by norm_num) (by norm_num)
  · rw [binary64_eq _ (-1) 4977662746041075 (by norm_num) (by norm_num) (by norm_num)
      (by rw [abs_lt]; constructor <;> norm_num) (by norm_num)]
    congr 1; norm_num
  · rw [binary64_eq _ 3 5910974510923777 (by norm_num) (by norm_num) (by norm_num)
      (by rw [abs_lt]; constructor <;> norm_num) (by norm_num)]
    congr 1; norm_num
  · exact binary64_exact _ 3 4785074604081151 (by norm_num) (by norm_num) (by norm_num)
      (by norm_num) (by norm_num)

/-- The fraction and the estimate of `time_then_speed_b64` from the doubles of
the four operations, for a speed of at least 1. -/
theorem b64_estimate_eval (D e F r p x y : ℚ) (hD : D ≠ 0)
    (h1 : binary64 (e / D) = fin r) (h2 : binary64 (r * D) = fin p)
    (h3 : binary64 (D - p) = fin x) (hx : 0 ≤ x) (hF : 1 ≤ F)
    (h4 : binary64 (x / F) = fin y) :
    div_b64 (fin e) (fin D) = fin r ∧
    div_b64
        (nonneg_part (sub_b64 (fin D) (mul_b64 (div_b64 (fin e) (fin D)) (fin D))))
        (fin (max F (round64 (1 / 10)))) = fin y := by
  have hdiv : div_b64 (fin e) (fin D) = fin r := by
    rw [(b64_ops_fin e D).2.2.1 hD, h1]
  have hmax : max F (round64 (1 / 10)) = F :=
    max_eq_left (le_trans (speed_clamp_b64 F).2.1 hF)
  have hFne : F ≠ 0 := by intro h; rw [h] at hF; norm_num at hF
  refine ⟨hdiv, ?_⟩
  rw [hdiv, (b64_ops_fin r D).1, h2, (b64_ops_fin D p).2.1, h3, (b64_ops_fin x 0).2.2.2 hx, hmax,
    (b64_ops_fin x F).2.2.1 hFne, h4]

/-! ## C6: a time line followed by a speed line -/

/-- C6, refuted. On a file of 19 s the lines `out_time_ms=10500000` and
`speed=1.0x` are read, every operation rounded to a double as in the code:
the fraction stored is the double nearest to 10.5/19, the estimate is
recomputed as `19 - fraction * 19`, and it comes out as
`8.5 - 2^(-49)` (8.499999999999998), not as `(19 - 10.5) / max(1.0, 0.1)`,
which is 8.5. -/
theorem C6_binary64_counterexample :
    sample_nineteen.total_duration = fin 19 ∧
    (ffmpeg_progress_cb_b64
        (ffmpeg_progress_cb_b64 sample_nineteen io_in (ReadLine.normal "out_time_ms=10500000\n")
          2000000).1
        io_in (ReadLine.normal "speed=1.0x\n") 2100000).1.tx_eta_sec
      = fin (4785074604081151 / 562949953421312) ∧
    (ffmpeg_progress_cb_b64
        (ffmpeg_progress_cb_b64 sample_nineteen io_in (ReadLine.normal "out_time_ms=10500000\n")
          2000000).1
        io_in (ReadLine.normal "speed=1.0x\n") 2100000).1.tx_eta_sec
      ≠ fin ((19 - 10500000 / 1000000) / max 1 (1 / 10)) := by
  have he : div_b64 (g_ascii_strtod_b64 ((cstr "out_time_ms=10500000\n".data).drop 12))
      (fin 1000000) = fin (21 / 2) := by
    rw [b64_line_values.1, (b64_ops_fin 10500000 1000000).2.2.1 (by norm_num),
      show (10500000 : ℚ) / 1000000 = 21 / 2 by norm_num]
    exact b64_values.1
  have h := time_then_speed_b64 sample_nineteen "out_time_ms=10500000\n" "speed=1.0x\n"
    2000000 2100000 19 (21 / 2) 1 rfl (by norm_num) (by decide) he (by norm_num) (by norm_num)
    (by decide) b64_line_values.2.1
  have hev := b64_estimate_eval 19 (21 / 2) 1
    (4977662746041075 / 9007199254740992) (5910974510923777 / 562949953421312)
    (4785074604081151 / 562949953421312) (4785074604081151 / 562949953421312)
    (by norm_num) b64_values.2.2.2.2.2.1 b64_values.2.2.2.2.2.2.1
    (by
      rw [show (19 : ℚ) - 5910974510923777 / 562949953421312
        = 4785074604081151 / 562949953421312 by norm_num]
      exact b64_values.2.2.2.2.2.2.2)
    (by norm_num) (le_refl _)
    (by
      rw [div_one]
      exact b64_values.2.2.2.2.2.2.2)
  have hval : (ffmpeg_progress_cb_b64
        (ffmpeg_progress_cb_b64 sample_nineteen io_in (ReadLine.normal "out_time_ms=10500000\n")
          2000000).1
        io_in (ReadLine.normal "speed=1.0x\n") 2100000).1.tx_eta_sec
      = fin (4785074604081151 / 562949953421312) := h.2.trans hev.2
  refine ⟨rfl, hval, ?_⟩
  rw [hval]
  intro hcontra
  have hm : max (1 : ℚ) (1 / 10) = 1 := max_eq_left (by norm_num)
  rw [hm] at hcontra
  have := GDouble.fin.inj hcontra
  norm_num at this

/-- C6, amended. For every known total duration `D > 0`, after
`ffmpeg_progress_cb` has processed a line `out_time_ms=N` whose elapsed media
time `N/1e6` lies in `[0, D]` and then a line `speed=Fx`, every operation
being rounded to a double: the transcode fraction is `(N/1e6)/D`, and the
transcode remaining estimate is `max(0, D - fraction * D) / max(F, 0.1)`,
recomputed from the stored fraction.  With `D = 120`, `N = 60000000` and
`F = 2.0` no operation rounds and this gives the fraction 0.5 and 30 s; and
in exact arithmetic the estimate is `(D - N/1e6) / max(F, 0.1)`. -/
theorem C6_time_then_speed_binary64 :
    (∀ (w : AppWidgets) (line1 line2 : String) (now1 now2 : Int) (D e F : ℚ),
      w.total_duration = fin D → 0 < D →
      g_str_has_prefix (cstr line1.data) "out_time_ms=".data = true →
      div_b64 (g_ascii_strtod_b64 ((cstr line1.data).drop 12)) (fin 1000000) = fin e →
      0 ≤ e → e ≤ D →
      g_str_has_prefix (cstr line2.data) "speed=".data = true →
      g_ascii_strtod_b64 ((cstr line2.data).drop 6) = fin F →
      (ffmpeg_progress_cb_b64 (ffmpeg_progress_cb_b64 w io_in (ReadLine.normal line1) now1).1
          io_in (ReadLine.normal line2) now2).1.tx_progress_0_1 = div_b64 (fin e) (fin D) ∧
      (ffmpeg_progress_cb_b64 (ffmpeg_progress_cb_b64 w io_in (ReadLine.normal line1) now1).1
          io_in (ReadLine.normal line2) now2).1.tx_eta_sec
        = div_b64
            (nonneg_part (sub_b64 (fin D) (mul_b64 (div_b64 (fin e) (fin D)) (fin D))))
            (fin (max F (round64 (1 / 10))))) ∧
    ((ffmpeg_progress_cb_b64
        (ffmpeg_progress_cb_b64 sample_transcode io_in (ReadLine.normal "out_time_ms=60000000\n")
          2000000).1
        io_in (ReadLine.normal "speed=2.0x\n") 2100000).1.tx_progress_0_1 = fin (1 / 2) ∧
     (ffmpeg_progress_cb_b64
        (ffmpeg_progress_cb_b64 sample_transcode io_in (ReadLine.normal "out_time_ms=60000000\n")
          2000000).1
        io_in (ReadLine.normal "speed=2.0x\n") 2100000).1.tx_eta_sec = fin 30) ∧
    (∀ D e F : ℚ, 0 < D → 0 ≤ e → e ≤ D →
      GDouble.div
        (nonneg_part
          (GDouble.sub (fin D) (GDouble.mul (GDouble.div (fin e) (fin D)) (fin D))))
        (fin (max F (1 / 10))) = fin ((D - e) / max F (1 / 10))) := by
  refine ⟨?_, ?_, ?_⟩
  · intro w line1 line2 now1 now2 D e F hD hpos hpre1 he h0 h1 hpre2 hF
    exact time_then_speed_b64 w line1 line2 now1 now2 D e F hD hpos hpre1 he h0 h1 hpre2 hF
  · have he : div_b64 (g_ascii_strtod_b64 ((cstr "out_time_ms=60000000\n".data).drop 12))
        (fin 1000000) = fin 60 := by
      rw [b64_line_values.2.2.1, (b64_ops_fin 60000000 1000000).2.2.1 (by norm_num),
        show (60000000 : ℚ) / 1000000 = 60 by norm_num]
      exact b64_values.2.2.2.1
    have h := time_then_speed_b64 sample_transcode "out_time_ms=60000000\n" "speed=2.0x\n"
      2000000 2100000 120 60 2 rfl (by norm_num) (by decide) he (by norm_num) (by norm_num)
      (by decide) b64_line_values.2.2.2.1
    have hev := b64_estimate_eval 120 60 2 (1 / 2) 60 60 30 (by norm_num)
      (by rw [show (60 : ℚ) / 120 = 1 / 2 by norm_num]; exact b64_values.2.2.2.2.1)
      (by rw [show (1 : ℚ) / 2 * 120 = 60 by norm_num]; exact b64_values.2.2.2.1)
      (by rw [show (120 : ℚ) - 60 = 60 by norm_num]; exact b64_values.2.2.2.1)
      (by norm_num) (by norm_num)
      (by rw [show (60 : ℚ) / 2 = 30 by norm_num]; exact b64_values.2.2.1)
    exact ⟨h.1.trans hev.1, h.2.trans hev.2⟩
  · intro D e F hpos h0 h1
    have hne : D ≠ 0 := ne_of_gt hpos
    have hden : max F (1 / 10) ≠ 0 :=
      ne_of_gt (lt_of_lt_of_le (by norm_num) (le_max_right _ _))
    have hmul : e / D * D = e := div_mul_cancel₀ _ hne
    have hnn : (0 : ℚ) ≤ D - e := by linarith
    have hsub : GDouble.sub (fin D) (fin e) = fin (D - e) := by
      simp only [GDouble.sub, GDouble.neg, GDouble.add, sub_eq_add_neg]
    simp only [GDouble.div, if_neg hne, GDouble.mul, hmul, hsub,
      (b64_ops_fin (D - e) 0).2.2.2 hnn, if_neg hden]

/-- C6 amended, on the lines of a file of 40 s half way through at speed 1:
the fraction is 1/2 and the estimate 20 s. -/
theorem C6_time_then_speed_binary64_witness :
    (ffmpeg_progress_cb_b64
        (ffmpeg_progress_cb_b64 sample_single_phase io_in
          (ReadLine.normal "out_time_ms=20000000\n") 6000000).1
        io_in (ReadLine.normal "speed=1.0x\n") 6000100).1.tx_progress_0_1 = fin (1 / 2) ∧
    (ffmpeg_progress_cb_b64
        (ffmpeg_progress_cb_b64 sample_single_phase io_in
          (ReadLine.normal "out_time_ms=20000000\n") 6000000).1
        io_in (ReadLine.normal "speed=1.0x\n") 6000100).1.tx_eta_sec = fin 20 := by
  have he : div_b64 (g_ascii_strtod_b64 ((cstr "out_time_ms=20000000\n".data).drop 12))
      (fin 1000000) = fin 20 := by
    rw [b64_line_values.2.2.2.2, (b64_ops_fin 20000000 1000000).2.2.1 (by norm_num),
      show (20000000 : ℚ) / 1000000 = 20 by norm_num]
    exact b64_values.2.1
  have h := C6_time_then_speed_binary64.1 sample_single_phase "out_time_ms=20000000\n"
    "speed=1.0x\n" 6000000 6000100 40 20 1 rfl (by norm_num) (by decide) he (by norm_num)
    (by norm_num) (by decide) b64_line_values.2.1
  have hev := b64_estimate_eval 40 20 1 (1 / 2) 20 20 20 (by norm_num)
    (by rw [show (20 : ℚ) / 40 = 1 / 2 by norm_num]; exact b64_values.2.2.2.2.1)
    (by rw [show (1 : ℚ) / 2 * 40 = 20 by norm_num]; exact b64_values.2.1)
    (by rw [show (40 : ℚ) - 20 = 20 by norm_num]; exact b64_values.2.1)
    (by norm_num) (le_refl _)
    (by rw [div_one]; exact b64_values.2.1)
  exact ⟨h.1.trans hev.1, h.2.trans hev.2⟩

/-! ## C7: the estimate written by a time line -/

/-- C7, refuted. In the two-minute sample job a line `speed=2.0x` (clamped
factor 2) is read and then `out_time_ms=60000000`: the estimate becomes 60 s,
not the 30 s that dividing the remaining 60 media seconds by the last known
factor would give. -/
theorem C7_last_speed_counterexample :
    g_ascii_strtod ((cstr "speed=2.0x\n".data).drop 6) = fin 2 ∧
    (ffmpeg_progress_cb
        (ffmpeg_progress_cb sample_transcode io_in (ReadLine.normal "speed=2.0x\n") 2000000).1
        io_in (ReadLine.normal "out_time_ms=60000000\n") 2100000).1.tx_eta_sec = fin 60 ∧
    (ffmpeg_progress_cb
        (ffmpeg_progress_cb sample_transcode io_in (ReadLine.normal "speed=2.0x\n") 2000000).1
        io_in (ReadLine.normal "out_time_ms=60000000\n") 2100000).1.tx_eta_sec
      ≠ fin (max 0 (120 - 60000000 / 1000000) / max 2 (1 / 10)) := by
  have hD : (ffmpeg_progress_line sample_transcode "speed=2.0x\n" 2000000).total_duration
      = fin 120 := by
    rw [(ffmpeg_line_unchanged _ _ _).1]; rfl
  have h := (ffmpeg_out_time_fields
    (ffmpeg_progress_line sample_transcode "speed=2.0x\n" 2000000)
    "out_time_ms=60000000\n" 2100000 120 60000000 (by decide) hD (by norm_num)
    sample_line_values.1).1
  have h60 : (ffmpeg_progress_cb
        (ffmpeg_progress_cb sample_transcode io_in (ReadLine.normal "speed=2.0x\n") 2000000).1
        io_in (ReadLine.normal "out_time_ms=60000000\n") 2100000).1.tx_eta_sec = fin 60 := by
    refine h.trans ?_
    norm_num
  refine ⟨sample_line_values.2.1, h60, ?_⟩
  rw [h60]
  have hm : max (2 : ℚ) (1 / 10) = 2 := max_eq_left (by norm_num)
  rw [hm]
  intro hcontra
  have := GDouble.fin.inj hcontra
  norm_num at this

/-- C7, amended. For every known total duration `D > 0` and whatever lines
(speed lines included) were read earlier in the job, a line `out_time_ms=N`
sets the transcode remaining estimate to `max(0, D - N/1e6)` divided by the
fixed factor 1.0: no earlier speed factor enters it. -/
theorem C7_time_line_estimate (w : AppWidgets) (earlier : List (String × Int)) (line : String)
    (now_us : Int) (D N : ℚ)
    (hD : w.total_duration = fin D) (hpos : 0 < D)
    (hpre : g_str_has_prefix (cstr line.data) "out_time_ms=".data = true)
    (hN : g_ascii_strtod ((cstr line.data).drop 12) = fin N) :
    (ffmpeg_progress_cb (feed_ffmpeg w earlier) io_in (ReadLine.normal line) now_us).1.tx_eta_sec
      = fin (max 0 (D - N / 1000000) / 1) := by
  have hD2 : (feed_ffmpeg w earlier).total_duration = fin D := by
    rw [feed_ffmpeg_total_duration, hD]
  have h := (ffmpeg_out_time_fields (feed_ffmpeg w earlier) line now_us D N hpre hD2 hpos hN).1
  rw [div_one]
  exact h

/-- C7 amended, in the sample job after a line `speed=2.0x`: the time line at
one minute leaves 60 s. -/
theorem C7_time_line_estimate_witness :
    (ffmpeg_progress_cb (feed_ffmpeg sample_transcode [("speed=2.0x\n", 2000000)]) io_in
        (ReadLine.normal "out_time_ms=60000000\n") 2100000).1.tx_eta_sec = fin 60 :=
  (C7_time_line_estimate sample_transcode [("speed=2.0x\n", 2000000)] "out_time_ms=60000000\n"
    2100000 120 60000000 rfl (by norm_num) (by decide) sample_line_values.1).trans
    (by norm_num)


/-! ## C8: malformed progress lines -/

/-- A progress line whose three tokens are non-numeric: the callback keeps its
watch, the three values are 0, the fraction stays and the remaining seconds
are set to 0. -/
theorem ytdlp_line_non_numeric (w : AppWidgets) (line : String) (now_us : Int)
    (hpre : g_str_has_prefix (cstr line.data) "progress:[".data = true)
    (hd : token_non_numeric line "downloaded=" = true)
    (ht : token_non_numeric line "total=" = true)
    (he : token_non_numeric line "eta=" = true) :
    (ytdlp_progress_cb w io_in (ReadLine.normal line) now_us).2 = true ∧
    token_value line "downloaded=" = fin 0 ∧
    token_value line "total=" = fin 0 ∧
    token_value line "eta=" = fin 0 ∧
    (ytdlp_progress_cb w io_in (ReadLine.normal line) now_us).1.dl_progress_0_1
      = w.dl_progress_0_1 ∧
    (ytdlp_progress_cb w io_in (ReadLine.normal line) now_us).1.dl_eta_sec = fin 0 := by
  have hcb : (ytdlp_progress_cb w io_in (ReadLine.normal line) now_us).1
      = ytdlp_progress_line w line now_us := rfl
  have hvd := token_value_non_numeric line "downloaded=" hd
  have hvt := token_value_non_numeric line "total=" ht
  have hve := token_value_non_numeric line "eta=" he
  have h00 : GDouble.gt (fin 0) (fin 0) = false := by simp [GDouble.gt, GDouble.lt]
  refine ⟨rfl, hvd, hvt, hve, ?_, ?_⟩
  · rw [hcb, ytdlp_line_dl_progress w line now_us hpre, hvt, h00]; rfl
  · rw [hcb, ytdlp_line_dl_eta w line now_us hpre, hve, h00]; rfl

/-- C8, refuted. On the line of scenario E, read while 42 seconds are reported
left, the remaining-seconds estimate does not keep its prior value: it becomes
0. -/
theorem C8_scenario_E_counterexample :
    sample_download_midway.dl_eta_sec = fin 42 ∧
    (ytdlp_progress_cb sample_download_midway io_in (ReadLine.normal scenario_E_line)
      3000000).1.dl_eta_sec = fin 0 ∧
    (ytdlp_progress_cb sample_download_midway io_in (ReadLine.normal scenario_E_line)
      3000000).1.dl_eta_sec ≠ sample_download_midway.dl_eta_sec := by
  have h := (ytdlp_line_non_numeric sample_download_midway scenario_E_line 3000000
    (by decide) (by decide) (by decide) (by decide)).2.2.2.2.2
  refine ⟨rfl, h, ?_⟩
  rw [h]
  intro hcontra
  have h42 : sample_download_midway.dl_eta_sec = fin 42 := rfl
  rw [h42] at hcontra
  have := GDouble.fin.inj hcontra
  norm_num at this

/-- C8, amended. Lenient parse: for every prior state, on the line
`progress:[downloaded=abc total=xyz eta=]` of scenario E, and on any progress
line whose three tokens are non-numeric, no error is raised (the callback
returns `TRUE`), all three values parse as 0, the download fraction keeps its
prior value and the download remaining seconds are set to 0. -/
theorem C8_lenient_parse :
    (∀ (w : AppWidgets) (now_us : Int),
      (ytdlp_progress_cb w io_in (ReadLine.normal scenario_E_line) now_us).2 = true ∧
      token_value scenario_E_line "downloaded=" = fin 0 ∧
      token_value scenario_E_line "total=" = fin 0 ∧
      token_value scenario_E_line "eta=" = fin 0 ∧
      (ytdlp_progress_cb w io_in (ReadLine.normal scenario_E_line) now_us).1.dl_progress_0_1
        = w.dl_progress_0_1 ∧
      (ytdlp_progress_cb w io_in (ReadLine.normal scenario_E_line) now_us).1.dl_eta_sec
        = fin 0) ∧
    (∀ (w : AppWidgets) (line : String) (now_us : Int),
      g_str_has_prefix (cstr line.data) "progress:[".data = true →
      token_non_numeric line "downloaded=" = true →
      token_non_numeric line "total=" = true →
      token_non_numeric line "eta=" = true →
      (ytdlp_progress_cb w io_in (ReadLine.normal line) now_us).2 = true ∧
      token_value line "downloaded=" = fin 0 ∧
      token_value line "total=" = fin 0 ∧
      token_value line "eta=" = fin 0 ∧
      (ytdlp_progress_cb w io_in (ReadLine.normal line) now_us).1.dl_progress_0_1
        = w.dl_progress_0_1 ∧
      (ytdlp_progress_cb w io_in (ReadLine.normal line) now_us).1.dl_eta_sec = fin 0) :=
  ⟨fun w now_us => ytdlp_line_non_numeric w scenario_E_line now_us
      (by decide) (by decide) (by decide) (by decide),
    fun w line now_us hpre hd ht he => ytdlp_line_non_numeric w line now_us hpre hd ht he⟩

/-- C8 amended, on the line the downloader prints while it knows nothing yet
(`NA` for every value), read while 42 seconds are reported left and half of
the bytes are there. -/
theorem C8_lenient_parse_witness :
    g_str_has_prefix (cstr "progress:[downloaded=NA total=NA eta=NA]\n".data) "progress:[".data
      = true ∧
    (ytdlp_progress_cb sample_download_midway io_in
      (ReadLine.normal "progress:[downloaded=NA total=NA eta=NA]\n") 3000000).1.dl_progress_0_1
      = fin (1 / 2) ∧
    (ytdlp_progress_cb sample_download_midway io_in
      (ReadLine.normal "progress:[downloaded=NA total=NA eta=NA]\n") 3000000).1.dl_eta_sec
      = fin 0 :=
  have h := C8_lenient_parse.2 sample_download_midway
    "progress:[downloaded=NA total=NA eta=NA]\n" 3000000
    (by decide) (by decide) (by decide) (by decide)
  ⟨by decide, h.2.2.2.2.1, h.2.2.2.2.2⟩


/-! ## C9: the invariant of the progress snapshot -/

/-- The invariant spelled out field by field. -/
theorem progress_invariant_iff (w : AppWidgets) :
    progress_invariant w = true ↔
      GDouble.le (fin 0) w.dl_eta_sec = true ∧ GDouble.le (fin 0) w.tx_eta_sec = true ∧
      GDouble.le (fin 0) w.dl_progress_0_1 = true ∧ GDouble.le w.dl_progress_0_1 (fin 1) = true ∧
      GDouble.le (fin 0) w.tx_progress_0_1 = true ∧ GDouble.le w.tx_progress_0_1 (fin 1) = true := by
  simp only [progress_invariant, Bool.and_eq_true]
  tauto

/-- The invariant looks at the four snapshot fields only. -/
theorem progress_invariant_congr (a b : AppWidgets)
    (h1 : a.dl_eta_sec = b.dl_eta_sec) (h2 : a.tx_eta_sec = b.tx_eta_sec)
    (h3 : a.dl_progress_0_1 = b.dl_progress_0_1) (h4 : a.tx_progress_0_1 = b.tx_progress_0_1) :
    progress_invariant a = progress_invariant b := by
  simp only [progress_invariant, h1, h2, h3, h4]

/-- A fraction within `[0, 1]` is a finite number. -/
theorem unit_interval_fin (x : GDouble) (h0 : GDouble.le (fin 0) x = true)
    (h1 : GDouble.le x (fin 1) = true) : ∃ q : ℚ, x = fin q ∧ 0 ≤ q ∧ q ≤ 1 := by
  cases x with
  | fin q => exact ⟨q, rfl, by simpa [GDouble.le] using h0, by simpa [GDouble.le] using h1⟩
  | pinf => simp [GDouble.le] at h1
  | ninf => simp [GDouble.le] at h0
  | nan => simp [GDouble.le] at h0

/-- The download exit handler leaves the four snapshot fields as they are. -/
theorem child_watch_ytdlp_fields (w : AppWidgets) (status : Nat) (ffprobe fs : Option String)
    (spawn : SpawnResult) (now_us : Int) :
    (child_watch_ytdlp w status ffprobe fs spawn now_us).dl_eta_sec = w.dl_eta_sec ∧
    (child_watch_ytdlp w status ffprobe fs spawn now_us).tx_eta_sec = w.tx_eta_sec ∧
    (child_watch_ytdlp w status ffprobe fs spawn now_us).dl_progress_0_1 = w.dl_progress_0_1 ∧
    (child_watch_ytdlp w status ffprobe fs spawn now_us).tx_progress_0_1 = w.tx_progress_0_1 := by
  unfold child_watch_ytdlp
  simp only
  split_ifs
  · exact ⟨rfl, rfl, rfl, rfl⟩
  · exact ⟨rfl, rfl, rfl, rfl⟩
  · split
    · exact ⟨rfl, rfl, rfl, rfl⟩
    · cases spawn <;> exact ⟨rfl, rfl, rfl, rfl⟩

/-- The transcoder exit handler leaves the four snapshot fields as they are. -/
theorem child_watch_ffmpeg_fields (w : AppWidgets) (status : Nat) :
    (child_watch_ffmpeg w status).dl_eta_sec = w.dl_eta_sec ∧
    (child_watch_ffmpeg w status).tx_eta_sec = w.tx_eta_sec ∧
    (child_watch_ffmpeg w status).dl_progress_0_1 = w.dl_progress_0_1 ∧
    (child_watch_ffmpeg w status).tx_progress_0_1 = w.tx_progress_0_1 := by
  unfold child_watch_ffmpeg
  simp only
  split_ifs <;> exact ⟨rfl, rfl, rfl, rfl⟩

/-- A cancellation request leaves the four snapshot fields as they are. -/
theorem cancel_running_fields (w : AppWidgets) :
    (cancel_running w).dl_eta_sec = w.dl_eta_sec ∧
    (cancel_running w).tx_eta_sec = w.tx_eta_sec ∧
    (cancel_running w).dl_progress_0_1 = w.dl_progress_0_1 ∧
    (cancel_running w).tx_progress_0_1 = w.tx_progress_0_1 := by
  unfold cancel_running
  simp only
  split_ifs <;> exact ⟨rfl, rfl, rfl, rfl⟩

/-- The start of a download establishes the invariant. -/
theorem start_ytdlp_invariant (w : AppWidgets) (url : String) (output : Option String)
    (now_us : Int) (spawn : SpawnResult) :
    progress_invariant (start_ytdlp w url output now_us spawn) = true := by
  have h00 : GDouble.le (fin 0) (fin 0) = true := by simp [GDouble.le]
  have h01 : GDouble.le (fin 0) (fin 1) = true := by simp [GDouble.le]
  rw [progress_invariant_iff]
  cases spawn <;> exact ⟨h00, h00, h00, h01, h00, h01⟩

/-- The start of a local conversion keeps the invariant. -/
theorem start_ffmpeg_conversion_invariant (w : AppWidgets) (input : String)
    (output : Option String) (now_us : Int) (spawn : SpawnResult)
    (h : progress_invariant w = true) :
    progress_invariant (start_ffmpeg_conversion w input output now_us spawn) = true := by
  rw [progress_invariant_iff] at h ⊢
  obtain ⟨h1, h2, h3, h4, h5, h6⟩ := h
  have h00 : GDouble.le (fin 0) (fin 0) = true := by simp [GDouble.le]
  unfold start_ffmpeg_conversion
  split_ifs
  · exact ⟨h1, h2, h3, h4, h5, h6⟩
  · cases spawn <;> exact ⟨h00, h00, h3, h4, h5, h6⟩

/-- A download progress line whose `downloaded` and `total` are finite numbers
keeps the invariant; so does every line that is not a progress line. -/
theorem ytdlp_line_invariant (w : AppWidgets) (line : String) (now_us : Int)
    (h : progress_invariant w = true)
    (hd : g_str_has_prefix (cstr line.data) "progress:[".data = true →
      ∃ d : ℚ, token_value line "downloaded=" = fin d)
    (ht : g_str_has_prefix (cstr line.data) "progress:[".data = true →
      ∃ t : ℚ, token_value line "total=" = fin t) :
    progress_invariant (ytdlp_progress_line w line now_us) = true := by
  by_cases hpre : g_str_has_prefix (cstr line.data) "progress:[".data = true
  · obtain ⟨d, hd⟩ := hd hpre
    obtain ⟨t, ht⟩ := ht hpre
    rw [progress_invariant_iff] at h ⊢
    obtain ⟨-, h2, h3, h4, h5, h6⟩ := h
    have hfields : (ytdlp_progress_line w line now_us).tx_eta_sec = w.tx_eta_sec ∧
        (ytdlp_progress_line w line now_us).tx_progress_0_1 = w.tx_progress_0_1 := by
      simp only [ytdlp_progress_line, hpre, if_true]
      split_ifs <;> exact ⟨rfl, rfl⟩
    have heta : GDouble.le (fin 0) (ytdlp_progress_line w line now_us).dl_eta_sec = true := by
      rw [ytdlp_line_dl_eta w line now_us hpre]
      cases token_value line "eta=" with
      | fin e =>
        by_cases he : 0 < e
        · simp [GDouble.gt, GDouble.lt, GDouble.le, he, he.le]
        · simp [GDouble.gt, GDouble.lt, GDouble.le, he]
      | pinf => simp [GDouble.gt, GDouble.lt, GDouble.le]
      | ninf => simp [GDouble.gt, GDouble.lt, GDouble.le]
      | nan => simp [GDouble.gt, GDouble.lt, GDouble.le]
    have hfr : GDouble.le (fin 0) (ytdlp_progress_line w line now_us).dl_progress_0_1 = true ∧
        GDouble.le (ytdlp_progress_line w line now_us).dl_progress_0_1 (fin 1) = true := by
      by_cases hpos : 0 < t
      · rw [ytdlp_line_fraction_fin w line now_us d t hpre hd ht hpos]
        simp [GDouble.le]
      · rw [ytdlp_line_dl_progress w line now_us hpre, ht]
        have hgt : GDouble.gt (fin t) (fin 0) = false := by
          simp [GDouble.gt, GDouble.lt, not_lt.mp hpos]
        rw [hgt]
        exact ⟨h3, h4⟩
    rw [hfields.1, hfields.2]
    exact ⟨heta, h2, hfr.1, hfr.2, h5, h6⟩
  · have hw : ytdlp_progress_line w line now_us = w := by
      simp only [ytdlp_progress_line, hpre, Bool.false_eq_true, if_false]
    rw [hw]; exact h

/-- The remaining estimate after a transcoder line that is neither a time
line nor a speed line: 0 on `progress=end`, untouched otherwise. -/
theorem ffmpeg_other_tx_eta (w : AppWidgets) (line : String) (now_us : Int)
    (h1 : g_str_has_prefix (cstr line.data) "out_time_ms=".data = false)
    (h2 : g_str_has_prefix (cstr line.data) "speed=".data = false) :
    (ffmpeg_progress_line w line now_us).tx_eta_sec =
      (if g_str_has_prefix (cstr line.data) "progress=end".data then fin 0 else w.tx_eta_sec) := by
  simp only [ffmpeg_progress_line, h1, h2, Bool.false_eq_true, if_false]
  split_ifs <;> rfl

/-- A transcoder line keeps the invariant when the total duration is a finite
number and the number on a time line or a speed line is finite. -/
theorem ffmpeg_line_invariant (w : AppWidgets) (line : String) (now_us : Int) (D : ℚ)
    (h : progress_invariant w = true)
    (hD : w.total_duration = fin D)
    (hN : g_str_has_prefix (cstr line.data) "out_time_ms=".data = true →
      ∃ N : ℚ, g_ascii_strtod ((cstr line.data).drop 12) = fin N)
    (hF : g_str_has_prefix (cstr line.data) "speed=".data = true →
      ∃ F : ℚ, g_ascii_strtod ((cstr line.data).drop 6) = fin F) :
    progress_invariant (ffmpeg_progress_line w line now_us) = true := by
  rw [progress_invariant_iff] at h ⊢
  obtain ⟨h1, h2, h3, h4, h5, h6⟩ := h
  have hun := ffmpeg_line_unchanged w line now_us
  rw [hun.2.2.1, hun.2.2.2.1]
  refine ⟨h1, ?_, h3, h4, ?_⟩
  · by_cases hpre1 : g_str_has_prefix (cstr line.data) "out_time_ms=".data = true
    · by_cases hpos : 0 < D
      · obtain ⟨N, hN⟩ := hN hpre1
        rw [(ffmpeg_out_time_fields w line now_us D N hpre1 hD hpos hN).1]
        simp [GDouble.le]
      · rw [ffmpeg_out_time_tx_eta w line now_us hpre1, hD]
        have hgt : GDouble.gt (fin D) (fin 0) = false := by
          simp [GDouble.gt, GDouble.lt, not_lt.mp hpos]
        rw [hgt]; exact h2
    · by_cases hpre2 : g_str_has_prefix (cstr line.data) "speed=".data = true
      · by_cases hpos : 0 < D
        · obtain ⟨P, hP, hP0, hP1⟩ := unit_interval_fin _ h5 h6
          obtain ⟨F, hF⟩ := hF hpre2
          rw [ffmpeg_speed_fields w line now_us D P F hpre2 hD hpos hP hF]
          have hden : (0 : ℚ) < max F (1 / 10) :=
            lt_of_lt_of_le (by norm_num) (le_max_right _ _)
          have : (0 : ℚ) ≤ max 0 (D - P * D) / max F (1 / 10) :=
            div_nonneg (le_max_left _ _) hden.le
          simpa [GDouble.le] using this
        · rw [ffmpeg_speed_tx_eta w line now_us hpre2, hD]
          have hgt : GDouble.gt (fin D) (fin 0) = false := by
            simp [GDouble.gt, GDouble.lt, not_lt.mp hpos]
          rw [hgt]; exact h2
      · rw [ffmpeg_other_tx_eta w line now_us (by simpa using hpre1) (by simpa using hpre2)]
        split_ifs
        · simp [GDouble.le]
        · exact h2
  · by_cases hpre1 : g_str_has_prefix (cstr line.data) "out_time_ms=".data = true
    · by_cases hpos : 0 < D
      · obtain ⟨N, hN⟩ := hN hpre1
        rw [(ffmpeg_out_time_fields w line now_us D N hpre1 hD hpos hN).2]
        simp [GDouble.le]
      · rw [ffmpeg_out_time_tx_progress w line now_us hpre1, hD]
        have hgt : GDouble.gt (fin D) (fin 0) = false := by
          simp [GDouble.gt, GDouble.lt, not_lt.mp hpos]
        rw [hgt]; exact ⟨h5, h6⟩
    · rw [hun.2.2.2.2 (by simpa using hpre1)]
      exact ⟨h5, h6⟩

/-- C9. The invariant of the progress snapshot holds in the initial state and
is kept by `start_ytdlp`, `start_ffmpeg_conversion`, both exit handlers,
`cancel_running` and by every progress line whose numbers are finite, the
total duration being finite; but it is broken by a line that carries a NaN
token or two oversized tokens: the two clamps let NaN through.  Evaluation at
the failing inputs: after `progress:[downloaded=nan total=1000 eta=10]`, and
after `progress:[downloaded=1e999 total=1e999 eta=10]`, the download fraction
is NaN; after `out_time_ms=nan` both transcode fields are NaN. -/
theorem C9_snapshot_invariant :
    progress_invariant AppWidgets.init = true ∧
    (∀ (w : AppWidgets) (url : String) (output : Option String) (now_us : Int)
      (spawn : SpawnResult), progress_invariant (start_ytdlp w url output now_us spawn) = true) ∧
    (∀ (w : AppWidgets) (input : String) (output : Option String) (now_us : Int)
      (spawn : SpawnResult), progress_invariant w = true →
        progress_invariant (start_ffmpeg_conversion w input output now_us spawn) = true) ∧
    (∀ (w : AppWidgets) (status : Nat) (ffprobe fs : Option String) (spawn : SpawnResult)
      (now_us : Int), progress_invariant w = true →
        progress_invariant (child_watch_ytdlp w status ffprobe fs spawn now_us) = true ∧
        progress_invariant (child_watch_ffmpeg w status) = true ∧
        progress_invariant (cancel_running w) = true) ∧
    (∀ (w : AppWidgets) (line : String) (now_us : Int), progress_invariant w = true →
      ( g_str_has_prefix (cstr line.data) "progress:[".data = true →
        ∃ d : ℚ, token_value line "downloaded=" = fin d) →
      ( g_str_has_prefix (cstr line.data) "progress:[".data = true →
        ∃ t : ℚ, token_value line "total=" = fin t) →
      progress_invariant (ytdlp_progress_cb w io_in (ReadLine.normal line) now_us).1 = true) ∧
    (∀ (w : AppWidgets) (line : String) (now_us : Int) (D : ℚ), progress_invariant w = true →
      w.total_duration = fin D →
      ( g_str_has_prefix (cstr line.data) "out_time_ms=".data = true →
        ∃ N : ℚ, g_ascii_strtod ((cstr line.data).drop 12) = fin N) →
      ( g_str_has_prefix (cstr line.data) "speed=".data = true →
        ∃ F : ℚ, g_ascii_strtod ((cstr line.data).drop 6) = fin F) →
      progress_invariant (ffmpeg_progress_cb w io_in (ReadLine.normal line) now_us).1 = true) ∧
    (progress_invariant sample_download = true ∧
      (ytdlp_progress_cb sample_download io_in
        (ReadLine.normal "progress:[downloaded=nan total=1000 eta=10]\n") 3000000).1.dl_progress_0_1
        = GDouble.nan ∧
      progress_invariant (ytdlp_progress_cb sample_download io_in
        (ReadLine.normal "progress:[downloaded=nan total=1000 eta=10]\n") 3000000).1 = false) ∧
    ((ytdlp_progress_cb sample_download io_in
        (ReadLine.normal "progress:[downloaded=1e999 total=1e999 eta=10]\n")
        3000000).1.dl_progress_0_1 = GDouble.nan ∧
      progress_invariant (ytdlp_progress_cb sample_download io_in
        (ReadLine.normal "progress:[downloaded=1e999 total=1e999 eta=10]\n") 3000000).1 = false) ∧
    (progress_invariant sample_transcode = true ∧
      (ffmpeg_progress_cb sample_transcode io_in (ReadLine.normal "out_time_ms=nan\n")
        2000000).1.tx_eta_sec = GDouble.nan ∧
      (ffmpeg_progress_cb sample_transcode io_in (ReadLine.normal "out_time_ms=nan\n")
        2000000).1.tx_progress_0_1 = GDouble.nan ∧
      progress_invariant (ffmpeg_progress_cb sample_transcode io_in
        (ReadLine.normal "out_time_ms=nan\n") 2000000).1 = false) := by
  have hinit : progress_invariant AppWidgets.init = true := by
    rw [progress_invariant_iff]
    simp [AppWidgets.init, GDouble.le]
  have hbroken : ∀ w : AppWidgets, w.dl_progress_0_1 = GDouble.nan ∨ w.tx_eta_sec = GDouble.nan →
      progress_invariant w = false := by
    intro w hw
    cases hinv : progress_invariant w with
    | false => rfl
    | true =>
      rw [progress_invariant_iff] at hinv
      rcases hw with hw | hw
      · rw [hw] at hinv; simp [GDouble.le] at hinv
      · rw [hw] at hinv; simp [GDouble.le] at hinv
  have hpinf : Scanned.value (Scanned.dec false 1 999) = pinf := by
    have hbig : overflowBound ≤
        (if false = true then -1 else 1) * ((1 : ℕ) : ℚ) * (10 : ℚ) ^ (999 : ℤ) := by
      unfold overflowBound; norm_num
    simp only [Scanned.value, ofRatRange, if_pos hbig]
  have hnan1 : (ytdlp_progress_cb sample_download io_in
      (ReadLine.normal "progress:[downloaded=nan total=1000 eta=10]\n") 3000000).1.dl_progress_0_1
      = GDouble.nan := by
    have hcb : (ytdlp_progress_cb sample_download io_in
        (ReadLine.normal "progress:[downloaded=nan total=1000 eta=10]\n") 3000000).1
        = ytdlp_progress_line sample_download
          "progress:[downloaded=nan total=1000 eta=10]\n" 3000000 := rfl
    rw [hcb, ytdlp_line_dl_progress _ _ _ (by decide),
      token_value_of_scan _ "downloaded=" Scanned.nan (by decide),
      token_value_of_scan _ "total=" (Scanned.dec false 1000 0) (by decide),
      value_dec_nat _ (by norm_num)]
    simp [Scanned.value, GDouble.gt, GDouble.lt, GDouble.div]
  have hnan2 : (ytdlp_progress_cb sample_download io_in
      (ReadLine.normal "progress:[downloaded=1e999 total=1e999 eta=10]\n")
      3000000).1.dl_progress_0_1 = GDouble.nan := by
    have hcb : (ytdlp_progress_cb sample_download io_in
        (ReadLine.normal "progress:[downloaded=1e999 total=1e999 eta=10]\n") 3000000).1
        = ytdlp_progress_line sample_download
          "progress:[downloaded=1e999 total=1e999 eta=10]\n" 3000000 := rfl
    rw [hcb, ytdlp_line_dl_progress _ _ _ (by decide),
      token_value_of_scan _ "downloaded=" (Scanned.dec false 1 999) (by decide),
      token_value_of_scan _ "total=" (Scanned.dec false 1 999) (by decide), hpinf]
    simp [GDouble.gt, GDouble.lt, GDouble.div]
  have hms : g_ascii_strtod ((cstr "out_time_ms=nan\n".data).drop 12) = GDouble.nan := by
    have hs : scanNumber ((cstr "out_time_ms=nan\n".data).drop 12) = Scanned.nan := by decide
    rw [g_ascii_strtod, hs]; rfl
  have hD : sample_transcode.total_duration = fin 120 := rfl
  have hnan3 : (ffmpeg_progress_cb sample_transcode io_in (ReadLine.normal "out_time_ms=nan\n")
      2000000).1.tx_eta_sec = GDouble.nan := by
    have hcb : (ffmpeg_progress_cb sample_transcode io_in (ReadLine.normal "out_time_ms=nan\n")
        2000000).1 = ffmpeg_progress_line sample_transcode "out_time_ms=nan\n" 2000000 := rfl
    rw [hcb, ffmpeg_out_time_tx_eta _ _ _ (by decide), hms, hD]
    simp [GDouble.gt, GDouble.lt, GDouble.div, GDouble.sub, GDouble.neg, GDouble.add]
  have hnan4 : (ffmpeg_progress_cb sample_transcode io_in (ReadLine.normal "out_time_ms=nan\n")
      2000000).1.tx_progress_0_1 = GDouble.nan := by
    have hcb : (ffmpeg_progress_cb sample_transcode io_in (ReadLine.normal "out_time_ms=nan\n")
        2000000).1 = ffmpeg_progress_line sample_transcode "out_time_ms=nan\n" 2000000 := rfl
    rw [hcb, ffmpeg_out_time_tx_progress _ _ _ (by decide), hms, hD]
    simp [GDouble.gt, GDouble.lt, GDouble.div]
  refine ⟨hinit, start_ytdlp_invariant, start_ffmpeg_conversion_invariant, ?_, ?_, ?_,
    ⟨start_ytdlp_invariant _ _ _ _ _, hnan1, hbroken _ (Or.inl hnan1)⟩,
    ⟨hnan2, hbroken _ (Or.inl hnan2)⟩,
    ⟨start_ffmpeg_conversion_invariant _ _ _ _ _ ?_, hnan3, hnan4, hbroken _ (Or.inr hnan3)⟩⟩
  · intro w status ffprobe fs spawn now_us h
    have a := child_watch_ytdlp_fields w status ffprobe fs spawn now_us
    have b := child_watch_ffmpeg_fields w status
    have c := cancel_running_fields w
    refine ⟨?_, ?_, ?_⟩
    · rw [progress_invariant_congr _ w a.1 a.2.1 a.2.2.1 a.2.2.2]; exact h
    · rw [progress_invariant_congr _ w b.1 b.2.1 b.2.2.1 b.2.2.2]; exact h
    · rw [progress_invariant_congr _ w c.1 c.2.1 c.2.2.1 c.2.2.2]; exact h
  · intro w line now_us h hd ht
    exact ytdlp_line_invariant w line now_us h hd ht
  · intro w line now_us D h hD hN hF
    exact ffmpeg_line_invariant w line now_us D h hD hN hF
  · rw [progress_invariant_iff]
    simp [AppWidgets.init, GDouble.le]

/-- C9 on the progress line of scenario B read by a fresh download: the
invariant holds afterwards. -/
theorem C9_snapshot_invariant_witness :
    progress_invariant sample_download = true ∧
    progress_invariant (ytdlp_progress_cb sample_download io_in
      (ReadLine.normal "progress:[downloaded=500 total=1000 eta=10]\n") 3000000).1 = true :=
  have hs : progress_invariant sample_download = true :=
    C9_snapshot_invariant.2.1 _ _ _ _ _
  ⟨hs, C9_snapshot_invariant.2.2.2.2.1 sample_download
    "progress:[downloaded=500 total=1000 eta=10]\n" 3000000 hs
    (fun _ => ⟨500, by
      rw [token_value_of_scan _ _ (Scanned.dec false 500 0) (by decide),
        value_dec_nat _ (by norm_num)]
      norm_num⟩)
    (fun _ => ⟨1000, by
      rw [token_value_of_scan _ _ (Scanned.dec false 1000 0) (by decide),
        value_dec_nat _ (by norm_num)]
      norm_num⟩)⟩


/-! ## C10: the remaining time shown -/

/-- The text shown for ten seconds. -/
theorem format_secs_ten : format_secs (fin 10) = "00:00:10" := by
  have hfl : ⌊(10 : ℚ) + 1 / 2⌋ = 10 := by
    rw [Int.floor_eq_iff]; norm_num
  have hlt : GDouble.lt (fin 10) (fin 0) = false := by simp [GDouble.lt]
  have hs : c_double_to_int (GDouble.add (fin 10) (fin (1 / 2))) = 10 := by
    have hnn : (0 : ℚ) ≤ 10 + 1 / 2 := by norm_num
    simp only [GDouble.add, c_double_to_int, if_pos hnn, hfl]
    decide
  simp only [format_secs, hlt, Bool.false_eq_true, if_false, hs]
  decide

/-- C10. The remaining time `update_unified_progress` shows is the download
estimate plus the transcode estimate while downloading and the transcode
estimate alone while transcoding (whatever download estimate is left over);
it is not negative when both estimates are at least 0; and for a freshly
started two-phase job that has read a progress line with `eta=10` it is 10
(shown as `00:00:10`). -/
theorem C10_display_remaining :
    (∀ (w : AppWidgets) (now_us : Int), w.phase = Phase.PHASE_DOWNLOADING →
      unified_remain w = GDouble.add w.dl_eta_sec w.tx_eta_sec ∧
      (update_unified_progress w now_us).progress_label
        = format_secs (GDouble.add w.dl_eta_sec w.tx_eta_sec)) ∧
    (∀ (w : AppWidgets) (now_us : Int), w.phase = Phase.PHASE_TRANSCODING →
      unified_remain w = w.tx_eta_sec ∧
      (update_unified_progress w now_us).progress_label = format_secs w.tx_eta_sec) ∧
    (∀ w : AppWidgets, GDouble.le (fin 0) w.dl_eta_sec = true →
      GDouble.le (fin 0) w.tx_eta_sec = true →
      GDouble.le (fin 0) (unified_remain w) = true ∧
      GDouble.lt (unified_remain w) (fin 0) = false) ∧
    (unified_remain (ytdlp_progress_cb sample_download io_in
        (ReadLine.normal "progress:[downloaded=500 total=1000 eta=10]\n") 3000000).1 = fin 10 ∧
      (ytdlp_progress_cb sample_download io_in
        (ReadLine.normal "progress:[downloaded=500 total=1000 eta=10]\n") 3000000).1.progress_label
        = "00:00:10") := by
  refine ⟨?_, ?_, ?_, ?_⟩
  · intro w now_us h
    have hr : unified_remain w = GDouble.add w.dl_eta_sec w.tx_eta_sec := by
      simp only [unified_remain, h]
    exact ⟨hr, by simp only [update_unified_progress, hr]⟩
  · intro w now_us h
    have hr : unified_remain w = w.tx_eta_sec := by
      simp only [unified_remain, h]
    exact ⟨hr, by simp only [update_unified_progress, hr]⟩
  · intro w hdl htx
    have h := unified_remain_nonneg w hdl htx
    refine ⟨h, ?_⟩
    rcases nonneg_cases _ h with ⟨q, hq, hq0⟩ | hq
    · rw [hq]; simp [GDouble.lt, hq0]
    · rw [hq]; simp [GDouble.lt]
  · have hline : g_str_has_prefix
        (cstr "progress:[downloaded=500 total=1000 eta=10]\n".data) "progress:[".data = true := by
      decide
    have he : token_value "progress:[downloaded=500 total=1000 eta=10]\n" "eta=" = fin 10 := by
      rw [token_value_of_scan _ _ (Scanned.dec false 10 0) (by decide),
        value_dec_nat _ (by norm_num)]
      norm_num
    have hcb : (ytdlp_progress_cb sample_download io_in
        (ReadLine.normal "progress:[downloaded=500 total=1000 eta=10]\n") 3000000).1
        = ytdlp_progress_line sample_download
          "progress:[downloaded=500 total=1000 eta=10]\n" 3000000 := rfl
    have hgt : GDouble.gt (fin 10) (fin 0) = true := by simp [GDouble.gt, GDouble.lt]
    have hdl : (ytdlp_progress_line sample_download
        "progress:[downloaded=500 total=1000 eta=10]\n" 3000000).dl_eta_sec = fin 10 := by
      rw [ytdlp_line_dl_eta _ _ _ hline, he, if_pos hgt]
    have hrest : (ytdlp_progress_line sample_download
          "progress:[downloaded=500 total=1000 eta=10]\n" 3000000).tx_eta_sec = fin 0 ∧
        (ytdlp_progress_line sample_download
          "progress:[downloaded=500 total=1000 eta=10]\n" 3000000).phase
          = Phase.PHASE_DOWNLOADING ∧
        (ytdlp_progress_line sample_download
          "progress:[downloaded=500 total=1000 eta=10]\n" 3000000).progress_label
          = format_secs (unified_remain (ytdlp_progress_line sample_download
              "progress:[downloaded=500 total=1000 eta=10]\n" 3000000)) := by
      simp only [ytdlp_progress_line, hline, if_true]
      split_ifs <;> exact ⟨rfl, rfl, rfl⟩
    have hrem : unified_remain (ytdlp_progress_line sample_download
        "progress:[downloaded=500 total=1000 eta=10]\n" 3000000) = fin 10 := by
      simp only [unified_remain, hrest.2.1, hdl, hrest.1, GDouble.add]
      norm_num
    rw [hcb]
    refine ⟨hrem, ?_⟩
    rw [hrest.2.2, hrem, format_secs_ten]

/-- C10 in a download with 10 s reported left and a stale transcode estimate
of 5 s: the sum is shown; once the phase is Transcoding the 10 s of the
download no longer count. -/
theorem C10_display_remaining_witness :
    { sample_download with dl_eta_sec := fin 10, tx_eta_sec := fin 5 }.phase
      = Phase.PHASE_DOWNLOADING ∧
    unified_remain { sample_download with dl_eta_sec := fin 10, tx_eta_sec := fin 5 } = fin 15 ∧
    unified_remain { sample_transcode with dl_eta_sec := fin 10, tx_eta_sec := fin 5 } = fin 5 :=
  ⟨rfl,
    (C10_display_remaining.1 { sample_download with dl_eta_sec := fin 10, tx_eta_sec := fin 5 }
      0 rfl).1.trans (by simp only [GDouble.add]; norm_num),
    (C10_display_remaining.2.1 { sample_transcode with dl_eta_sec := fin 10, tx_eta_sec := fin 5 }
      0 rfl).1⟩


/-! ## C12: the exit of the transcoder -/

/-- C12. For every exit status `child_watch_ffmpeg` clears the transcoder
process id and the stream handle; when cancellation has not been requested it
reports `Conversion finished.` with the bar forced to 1.0 and the remaining
time shown as `00:00:00` if and only if the process exited normally with
code 0, and `Conversion failed.` otherwise. -/
theorem C12_transcoder_exit (w : AppWidgets) (status : Nat) :
    (child_watch_ffmpeg w status).ffmpeg_pid = 0 ∧
    (child_watch_ffmpeg w status).ff_io = none ∧
    (w.cancel_requested = false →
      (WIFEXITED status = true ∧ WEXITSTATUS status = 0 →
        (child_watch_ffmpeg w status).status_label = "Conversion finished." ∧
        (child_watch_ffmpeg w status).progress_bar = fin 1 ∧
        (child_watch_ffmpeg w status).progress_label = "00:00:00") ∧
      (¬ (WIFEXITED status = true ∧ WEXITSTATUS status = 0) →
        (child_watch_ffmpeg w status).status_label = "Conversion failed.") ∧
      ((child_watch_ffmpeg w status).status_label = "Conversion finished." ↔
        (WIFEXITED status = true ∧ WEXITSTATUS status = 0))) := by
  have hclear : (child_watch_ffmpeg w status).ffmpeg_pid = 0 ∧
      (child_watch_ffmpeg w status).ff_io = none := by
    unfold child_watch_ffmpeg
    simp only
    split_ifs <;> exact ⟨rfl, rfl⟩
  refine ⟨hclear.1, hclear.2, ?_⟩
  intro hc
  have hne : ("Conversion failed." : String) ≠ "Conversion finished." := by decide
  by_cases hok : WIFEXITED status = true ∧ WEXITSTATUS status = 0
  · have hcond : (WIFEXITED status && WEXITSTATUS status == 0) = true := by
      simp [hok.1, hok.2]
    have hw : child_watch_ffmpeg w status =
        { w with ff_io := none, ffmpeg_pid := 0, status_label := "Conversion finished.",
                 progress_bar := fin 1, progress_label := "00:00:00" } := by
      simp [child_watch_ffmpeg, hc, hcond]
    rw [hw]
    exact ⟨fun _ => ⟨rfl, rfl, rfl⟩, fun h => absurd hok h, ⟨fun _ => hok, fun _ => rfl⟩⟩
  · have hcond : (WIFEXITED status && WEXITSTATUS status == 0) = false := by
      cases h1 : WIFEXITED status
      · simp
      · have : WEXITSTATUS status ≠ 0 := fun h0 => hok ⟨h1, h0⟩
        simp [this]
    have hw : child_watch_ffmpeg w status =
        { w with ff_io := none, ffmpeg_pid := 0, status_label := "Conversion failed." } := by
      simp [child_watch_ffmpeg, hc, hcond]
    rw [hw]
    exact ⟨fun h => absurd h hok, fun _ => rfl, ⟨fun h => absurd h hne, fun h => absurd h hok⟩⟩

/-- C12 on the sample single-phase job: a clean exit (status 0) is reported as
finished, an exit with code 1 (status 256) and a kill by signal 15 (status
15) as failed. -/
theorem C12_transcoder_exit_witness :
    sample_single_phase.cancel_requested = false ∧
    (child_watch_ffmpeg sample_single_phase 0).status_label = "Conversion finished." ∧
    (child_watch_ffmpeg sample_single_phase 0).progress_bar = fin 1 ∧
    (child_watch_ffmpeg sample_single_phase 256).status_label = "Conversion failed." ∧
    (child_watch_ffmpeg sample_single_phase 15).status_label = "Conversion failed." :=
  ⟨rfl,
    ((C12_transcoder_exit sample_single_phase 0).2.2 rfl).1 (by decide) |>.1,
    ((C12_transcoder_exit sample_single_phase 0).2.2 rfl).1 (by decide) |>.2.1,
    ((C12_transcoder_exit sample_single_phase 256).2.2 rfl).2.1 (by decide),
    ((C12_transcoder_exit sample_single_phase 15).2.2 rfl).2.1 (by decide)⟩


/-! ## C13: the phase transition of a two-phase job -/

/-- The test of the exit handlers on the wait status, as a proposition. -/
theorem exit_test_iff (status : Nat) :
    (WIFEXITED status && WEXITSTATUS status == 0) = true ↔
      (WIFEXITED status = true ∧ WEXITSTATUS status = 0) := by
  simp

/-- The downloader exit handler when the download did not end well: canceled,
or not an exit with code 0. -/
theorem child_watch_ytdlp_not_ok (w : AppWidgets) (status : Nat) (ffprobe fs : Option String)
    (spawn : SpawnResult) (now_us : Int) :
    (w.cancel_requested = true →
      child_watch_ytdlp w status ffprobe fs spawn now_us =
        { w with yt_io := none, yt_pid := 0, status_label := "Canceled.",
                 progress_bar := fin 0 }) ∧
    (w.cancel_requested = false → ¬ (WIFEXITED status = true ∧ WEXITSTATUS status = 0) →
      child_watch_ytdlp w status ffprobe fs spawn now_us =
        { w with yt_io := none, yt_pid := 0, status_label := "Download failed." }) := by
  constructor
  · intro hc
    simp [child_watch_ytdlp, hc]
  · intro hc hok
    have hcond : (WIFEXITED status && WEXITSTATUS status == 0) = false := by
      cases h : (WIFEXITED status && WEXITSTATUS status == 0)
      · rfl
      · exact absurd ((exit_test_iff status).mp h) hok
    simp [child_watch_ytdlp, hc, hcond]

/-- The downloader exit handler after a good download: the phase is
Transcoding and the status is the handler's own text or the error message of
the outside world. -/
theorem child_watch_ytdlp_ok (w : AppWidgets) (status : Nat) (ffprobe fs : Option String)
    (spawn : SpawnResult) (now_us : Int)
    (hc : w.cancel_requested = false)
    (hok : WIFEXITED status = true ∧ WEXITSTATUS status = 0) :
    (child_watch_ytdlp w status ffprobe fs spawn now_us).phase = Phase.PHASE_TRANSCODING ∧
    ((child_watch_ytdlp w status ffprobe fs spawn now_us).status_label
        = "Download finished. Starting conversion…" ∨
      (child_watch_ytdlp w status ffprobe fs spawn now_us).status_label = "" ∨
      fs = some (child_watch_ytdlp w status ffprobe fs spawn now_us).status_label ∨
      spawn = SpawnResult.fail (child_watch_ytdlp w status ffprobe fs spawn now_us).status_label) := by
  have hcond : (WIFEXITED status && WEXITSTATUS status == 0) = true :=
    (exit_test_iff status).mpr hok
  unfold child_watch_ytdlp
  simp only [hc, hcond, Bool.false_eq_true, if_false, Bool.not_true]
  unfold ensure_output_path
  split
  · rename_i err heq
    constructor
    · rfl
    · split at heq
      · simp at heq; right; left; rw [← heq]; rfl
      · split at heq
        · simp at heq; right; left; rw [← heq]; rfl
        · split at heq
          · simp at heq
          · simp at heq; right; right; left
            rename_i message
            rw [← heq]; rfl
  · cases spawn with
    | fail message => exact ⟨rfl, Or.inr (Or.inr (Or.inr rfl))⟩
    | ok pid fd => exact ⟨rfl, Or.inl rfl⟩

/-- While the downloader of a two-phase job is live, no operation other than
the downloader exit handler moves the phase away from Downloading. -/
theorem live_download_phase_kept (w : AppWidgets)
    (hp : w.phase = Phase.PHASE_DOWNLOADING) (hlive : w.yt_pid ≠ 0) :
    (∀ (cond : GIOCondition) (rd : ReadLine) (now_us : Int),
      (ytdlp_progress_cb w cond rd now_us).1.phase = Phase.PHASE_DOWNLOADING) ∧
    (∀ (cond : GIOCondition) (rd : ReadLine) (now_us : Int),
      (ffmpeg_progress_cb w cond rd now_us).1.phase = Phase.PHASE_DOWNLOADING) ∧
    (∀ status : Nat, (child_watch_ffmpeg w status).phase = Phase.PHASE_DOWNLOADING) ∧
    (cancel_running w).phase = Phase.PHASE_DOWNLOADING ∧
    (∀ (now_us : Int), (update_unified_progress w now_us).phase = Phase.PHASE_DOWNLOADING) ∧
    (∀ (input : String) (output : Option String) (now_us : Int) (spawn : SpawnResult),
      (start_ffmpeg_conversion w input output now_us spawn).phase = Phase.PHASE_DOWNLOADING) ∧
    (∀ (url : String) (output : Option String) (now_us : Int) (spawn : SpawnResult),
      (start_ytdlp w url output now_us spawn).phase = Phase.PHASE_DOWNLOADING) ∧
    (∀ (fs ffprobe : Option String) (now_us : Int) (spawn : SpawnResult),
      (on_convert_clicked w fs ffprobe now_us spawn).phase = Phase.PHASE_DOWNLOADING) := by
  have hytline : ∀ (line : String) (now_us : Int),
      (ytdlp_progress_line w line now_us).phase = w.phase := by
    intro line now_us
    simp only [ytdlp_progress_line]
    split_ifs <;> rfl
  have hstart_ff : ∀ (v : AppWidgets) (input : String) (output : Option String) (now_us : Int)
      (spawn : SpawnResult), v.yt_pid ≠ 0 →
      (start_ffmpeg_conversion v input output now_us spawn).phase = v.phase := by
    intro v input output now_us spawn hv
    have hg : v.ffmpeg_pid ≠ 0 ∨ v.yt_pid ≠ 0 := Or.inr hv
    simp only [start_ffmpeg_conversion, if_pos hg]
  have hstart_yt : ∀ (v : AppWidgets) (url : String) (output : Option String) (now_us : Int)
      (spawn : SpawnResult),
      (start_ytdlp v url output now_us spawn).phase = Phase.PHASE_DOWNLOADING := by
    intro v url output now_us spawn
    cases spawn <;> rfl
  refine ⟨?_, ?_, ?_, ?_, ?_, ?_, ?_, ?_⟩
  · intro cond rd now_us
    unfold ytdlp_progress_cb
    split_ifs
    · exact hp
    · cases rd with
      | normal line => exact (hytline line now_us).trans hp
      | eof => exact hp
      | again => exact hp
      | error => exact hp
  · intro cond rd now_us
    unfold ffmpeg_progress_cb
    split_ifs
    · exact hp
    · cases rd with
      | normal line => exact ((ffmpeg_line_unchanged w line now_us).2.1).trans hp
      | eof => exact hp
      | again => exact hp
      | error => exact hp
  · intro status
    have : (child_watch_ffmpeg w status).phase = w.phase := by
      unfold child_watch_ffmpeg
      simp only
      split_ifs <;> rfl
    exact this.trans hp
  · have : (cancel_running w).phase = w.phase := by
      unfold cancel_running
      simp only
      split_ifs <;> rfl
    exact this.trans hp
  · intro now_us; exact hp
  · intro input output now_us spawn
    exact (hstart_ff w input output now_us spawn hlive).trans hp
  · intro url output now_us spawn
    exact hstart_yt w url output now_us spawn
  · intro fs ffprobe now_us spawn
    unfold on_convert_clicked
    simp only
    split_ifs
    · exact hp
    · split
      · exact hp
      · exact hstart_yt _ _ _ _ _
    · split
      · exact hp
      · have h := hstart_ff
          { w with total_duration := get_media_duration (some w.input_entry) ffprobe }
          w.input_entry
          (append_extension_if_missing (some w.output_entry)
            (gtk_string_list_get_string w.format_dropdown)) now_us spawn hlive
        exact h.trans hp

/-- C13. Phase transition legality for a two-phase job. The downloader exit
handler moves the phase from Downloading to Transcoding exactly when the
downloader exited normally with code 0 and cancellation was not requested; on
any other exit status without cancellation it reports `Download failed.`,
leaves the phase at Downloading and launches no transcoder; it never reports
`Conversion finished.` or `Conversion failed.` (the error texts of the outside
world not being these); and while the downloader is live no other operation
moves the phase away from Downloading. -/
theorem C13_phase_transition :
    (∀ (w : AppWidgets) (status : Nat) (ffprobe fs : Option String) (spawn : SpawnResult)
      (now_us : Int), w.phase = Phase.PHASE_DOWNLOADING →
      ((child_watch_ytdlp w status ffprobe fs spawn now_us).phase = Phase.PHASE_TRANSCODING ↔
        (WIFEXITED status = true ∧ WEXITSTATUS status = 0 ∧ w.cancel_requested = false)) ∧
      (w.cancel_requested = false → ¬ (WIFEXITED status = true ∧ WEXITSTATUS status = 0) →
        (child_watch_ytdlp w status ffprobe fs spawn now_us).status_label = "Download failed." ∧
        (child_watch_ytdlp w status ffprobe fs spawn now_us).phase = Phase.PHASE_DOWNLOADING ∧
        (child_watch_ytdlp w status ffprobe fs spawn now_us).calls = w.calls ∧
        (child_watch_ytdlp w status ffprobe fs spawn now_us).ffmpeg_pid = w.ffmpeg_pid ∧
        (child_watch_ytdlp w status ffprobe fs spawn now_us).ff_io = w.ff_io)) ∧
    (∀ (w : AppWidgets) (status : Nat) (ffprobe fs : Option String) (spawn : SpawnResult)
      (now_us : Int),
      fs ≠ some "Conversion finished." → fs ≠ some "Conversion failed." →
      spawn ≠ SpawnResult.fail "Conversion finished." →
      spawn ≠ SpawnResult.fail "Conversion failed." →
      (child_watch_ytdlp w status ffprobe fs spawn now_us).status_label ≠ "Conversion finished." ∧
      (child_watch_ytdlp w status ffprobe fs spawn now_us).status_label ≠ "Conversion failed.") ∧
    (∀ w : AppWidgets, w.phase = Phase.PHASE_DOWNLOADING → w.yt_pid ≠ 0 →
      (∀ (cond : GIOCondition) (rd : ReadLine) (now_us : Int),
        (ytdlp_progress_cb w cond rd now_us).1.phase = Phase.PHASE_DOWNLOADING) ∧
      (∀ (cond : GIOCondition) (rd : ReadLine) (now_us : Int),
        (ffmpeg_progress_cb w cond rd now_us).1.phase = Phase.PHASE_DOWNLOADING) ∧
      (∀ status : Nat, (child_watch_ffmpeg w status).phase = Phase.PHASE_DOWNLOADING) ∧
      (cancel_running w).phase = Phase.PHASE_DOWNLOADING ∧
      (∀ (now_us : Int), (update_unified_progress w now_us).phase = Phase.PHASE_DOWNLOADING) ∧
      (∀ (input : String) (output : Option String) (now_us : Int) (spawn : SpawnResult),
        (start_ffmpeg_conversion w input output now_us spawn).phase = Phase.PHASE_DOWNLOADING) ∧
      (∀ (url : String) (output : Option String) (now_us : Int) (spawn : SpawnResult),
        (start_ytdlp w url output now_us spawn).phase = Phase.PHASE_DOWNLOADING) ∧
      (∀ (fs ffprobe : Option String) (now_us : Int) (spawn : SpawnResult),
        (on_convert_clicked w fs ffprobe now_us spawn).phase = Phase.PHASE_DOWNLOADING)) := by
  have hDT : Phase.PHASE_DOWNLOADING ≠ Phase.PHASE_TRANSCODING := by decide
  refine ⟨?_, ?_, live_download_phase_kept⟩
  · intro w status ffprobe fs spawn now_us hp
    have hnot := child_watch_ytdlp_not_ok w status ffprobe fs spawn now_us
    constructor
    · constructor
      · intro hT
        cases hc : w.cancel_requested with
        | true =>
          rw [hnot.1 hc] at hT
          exact absurd (hp.symm.trans hT) hDT
        | false =>
          by_cases hok : WIFEXITED status = true ∧ WEXITSTATUS status = 0
          · exact ⟨hok.1, hok.2, rfl⟩
          · rw [hnot.2 hc hok] at hT
            exact absurd (hp.symm.trans hT) hDT
      · intro h
        exact (child_watch_ytdlp_ok w status ffprobe fs spawn now_us h.2.2 ⟨h.1, h.2.1⟩).1
    · intro hc hok
      rw [hnot.2 hc hok]
      exact ⟨rfl, hp, rfl, rfl, rfl⟩
  · intro w status ffprobe fs spawn now_us hf1 hf2 hs1 hs2
    have hnot := child_watch_ytdlp_not_ok w status ffprobe fs spawn now_us
    have key : ∀ t : String, fs ≠ some t → spawn ≠ SpawnResult.fail t →
        "Canceled." ≠ t → "Download failed." ≠ t →
        "Download finished. Starting conversion…" ≠ t → "" ≠ t →
        (child_watch_ytdlp w status ffprobe fs spawn now_us).status_label ≠ t := by
      intro t hfs hsp h1 h2 h3 h4
      cases hc : w.cancel_requested with
      | true => rw [hnot.1 hc]; exact h1
      | false =>
        by_cases hok : WIFEXITED status = true ∧ WEXITSTATUS status = 0
        · rcases (child_watch_ytdlp_ok w status ffprobe fs spawn now_us hc hok).2 with
            h | h | h | h
          · rw [h]; exact h3
          · rw [h]; exact h4
          · intro heq; rw [heq] at h; exact hfs h
          · intro heq; rw [heq] at h; exact hsp h
        · rw [hnot.2 hc hok]; exact h2
    exact ⟨key _ hf1 hs1 (by decide) (by decide) (by decide) (by decide),
      key _ hf2 hs2 (by decide) (by decide) (by decide) (by decide)⟩

/-- C13 on the sample download: an exit with code 1 (status 256) is a failed
download that stays in phase Downloading, a clean exit moves to
Transcoding. -/
theorem C13_phase_transition_witness :
    sample_download.phase = Phase.PHASE_DOWNLOADING ∧
    (child_watch_ytdlp sample_download 256 (some "40.0\n") none (SpawnResult.ok 4010 9)
      5000000).status_label = "Download failed." ∧
    (child_watch_ytdlp sample_download 256 (some "40.0\n") none (SpawnResult.ok 4010 9)
      5000000).phase = Phase.PHASE_DOWNLOADING ∧
    (child_watch_ytdlp sample_download 0 (some "40.0\n") none (SpawnResult.ok 4010 9)
      5000000).phase = Phase.PHASE_TRANSCODING :=
  ⟨rfl,
    ((C13_phase_transition.1 sample_download 256 (some "40.0\n") none (SpawnResult.ok 4010 9)
      5000000 rfl).2 rfl (by decide)).1,
    ((C13_phase_transition.1 sample_download 256 (some "40.0\n") none (SpawnResult.ok 4010 9)
      5000000 rfl).2 rfl (by decide)).2.1,
    (C13_phase_transition.1 sample_download 0 (some "40.0\n") none (SpawnResult.ok 4010 9)
      5000000 rfl).1.mpr ⟨by decide, by decide, rfl⟩⟩


/-! ## C14: monotonicity of the display fraction -/

/-- The value of the fraction for an elapsed time `fin e` and a remaining time
`r` that is at least 0: `e / (e + r)` above the epsilon, otherwise 0. -/
theorem frac_value (e : ℚ) (r : GDouble) (he : 0 ≤ e) (hr : GDouble.le (fin 0) r = true) :
    let est := GDouble.add (fin e) r
    let f0 := if GDouble.gt est (fin (1 / 100)) then GDouble.div (fin e) est else fin 0
    let f1 := if GDouble.lt f0 (fin 0) then fin 0 else f0
    let f2 := if GDouble.gt f1 (fin 1) then fin 1 else f1
    (∀ q : ℚ, r = fin q → f2 = fin (if 1 / 100 < e + q then e / (e + q) else 0)) ∧
    (r = pinf → f2 = fin 0) := by
  intro est f0 f1 f2
  have hclamp : ∀ x : ℚ, 0 ≤ x → x ≤ 1 → f0 = fin x → f2 = fin x := by
    intro x hx0 hx1 hx
    simp only [f2, f1, hx]
    rw [clamp_fin, min_eq_right hx1, max_eq_right hx0]
  constructor
  · intro q hq
    subst hq
    have hq0 : 0 ≤ q := by simpa [GDouble.le] using hr
    by_cases h : (1 : ℚ) / 100 < e + q
    · have hpos : 0 < e + q := lt_trans (by norm_num) h
      rw [if_pos h]
      refine hclamp _ (div_nonneg he hpos.le) ?_ ?_
      · rw [div_le_one hpos]; linarith
      · simp only [f0, est, GDouble.add, GDouble.gt, GDouble.lt, decide_eq_true h, if_true,
          GDouble.div, if_neg (ne_of_gt hpos)]
    · rw [if_neg h]
      refine hclamp 0 (le_refl _) (by norm_num) ?_
      simp only [f0, est, GDouble.add, GDouble.gt, GDouble.lt, decide_eq_false h]
      simp
  · intro hq
    subst hq
    refine hclamp 0 (le_refl _) (by norm_num) ?_
    simp [f0, est, GDouble.add, GDouble.gt, GDouble.lt, GDouble.div]

/-- C14. Monotonicity under correct ETA reporting: for two updates, in
whatever phases, with elapsed times `0 <= e1 <= e2` and remaining times
`r1, r2 >= 0` that report the same total (`e1 + r1 = e2 + r2`), the fraction
`update_unified_progress` puts on the bar at the second update is not smaller
than at the first. -/
theorem C14_fraction_monotone (w1 w2 : AppWidgets) (now1 now2 : Int)
    (h0 : GDouble.le (fin 0) (unified_elapsed w1 now1) = true)
    (h12 : GDouble.le (unified_elapsed w1 now1) (unified_elapsed w2 now2) = true)
    (hr1 : GDouble.le (fin 0) (unified_remain w1) = true)
    (hr2 : GDouble.le (fin 0) (unified_remain w2) = true)
    (htot : GDouble.add (unified_elapsed w1 now1) (unified_remain w1)
      = GDouble.add (unified_elapsed w2 now2) (unified_remain w2)) :
    GDouble.le (update_unified_progress w1 now1).progress_bar
      (update_unified_progress w2 now2).progress_bar = true := by
  rw [unified_elapsed_eq] at h0 h12 htot
  rw [unified_elapsed_eq] at h12 htot
  have he1 : (0 : ℚ) ≤ ((now1 - w1.t_start_us : Int) : ℚ) / 1000000 := by
    simpa [GDouble.le] using h0
  have he12 : ((now1 - w1.t_start_us : Int) : ℚ) / 1000000
      ≤ ((now2 - w2.t_start_us : Int) : ℚ) / 1000000 := by
    simpa [GDouble.le] using h12
  have he2 : (0 : ℚ) ≤ ((now2 - w2.t_start_us : Int) : ℚ) / 1000000 := le_trans he1 he12
  have k1 := frac_value _ (unified_remain w1) he1 hr1
  have k2 := frac_value _ (unified_remain w2) he2 hr2
  have hb1 : (update_unified_progress w1 now1).progress_bar = unified_frac w1 now1 := rfl
  have hb2 : (update_unified_progress w2 now2).progress_bar = unified_frac w2 now2 := rfl
  rw [hb1, hb2]
  simp only [unified_frac, unified_elapsed_eq]
  generalize ((now1 - w1.t_start_us : Int) : ℚ) / 1000000 = e1 at *
  generalize ((now2 - w2.t_start_us : Int) : ℚ) / 1000000 = e2 at *
  rcases nonneg_cases _ hr1 with ⟨q1, hq1, hq10⟩ | hq1 <;>
  rcases nonneg_cases _ hr2 with ⟨q2, hq2, hq20⟩ | hq2
  · have hT : e1 + q1 = e2 + q2 := by
      rw [hq1, hq2] at htot
      simpa [GDouble.add] using htot
    have v1 := k1.1 q1 hq1
    have v2 := k2.1 q2 hq2
    simp only [] at v1 v2
    rw [v1, v2, hT]
    by_cases h : (1 : ℚ) / 100 < e2 + q2
    · have hpos : 0 < e2 + q2 := lt_trans (by norm_num) h
      rw [if_pos h, if_pos h]
      have : e1 / (e2 + q2) ≤ e2 / (e2 + q2) := div_le_div_of_nonneg_right he12 hpos.le
      simpa [GDouble.le] using this
    · rw [if_neg h, if_neg h]
      simp [GDouble.le]
  · rw [hq1, hq2] at htot
    simp [GDouble.add] at htot
  · rw [hq1, hq2] at htot
    simp [GDouble.add] at htot
  · have v1 := k1.2 hq1
    have v2 := k2.2 hq2
    simp only [] at v1 v2
    rw [v1, v2]
    simp [GDouble.le]

/-- C14 on the sample download: after 2 s with 8 s reported left and after
5 s with 5 s left (total 10 s both times) the bar does not go back. -/
theorem C14_fraction_monotone_witness :
    GDouble.add (unified_elapsed { sample_download with dl_eta_sec := fin 8 } 3000000)
        (unified_remain { sample_download with dl_eta_sec := fin 8 })
      = GDouble.add (unified_elapsed { sample_download with dl_eta_sec := fin 5 } 6000000)
        (unified_remain { sample_download with dl_eta_sec := fin 5 }) ∧
    GDouble.le
      (update_unified_progress { sample_download with dl_eta_sec := fin 8 } 3000000).progress_bar
      (update_unified_progress { sample_download with dl_eta_sec := fin 5 } 6000000).progress_bar
      = true := by
  have e1 : unified_elapsed { sample_download with dl_eta_sec := fin 8 } 3000000 = fin 2 := by
    rw [unified_elapsed_eq]
    simp only [sample_download, start_ytdlp]
    norm_num
  have e2 : unified_elapsed { sample_download with dl_eta_sec := fin 5 } 6000000 = fin 5 := by
    rw [unified_elapsed_eq]
    simp only [sample_download, start_ytdlp]
    norm_num
  have r1 : unified_remain { sample_download with dl_eta_sec := fin 8 } = fin 8 := by
    simp only [unified_remain, sample_download, start_ytdlp, GDouble.add]
    norm_num
  have r2 : unified_remain { sample_download with dl_eta_sec := fin 5 } = fin 5 := by
    simp only [unified_remain, sample_download, start_ytdlp, GDouble.add]
    norm_num
  have htot : GDouble.add (unified_elapsed { sample_download with dl_eta_sec := fin 8 } 3000000)
        (unified_remain { sample_download with dl_eta_sec := fin 8 })
      = GDouble.add (unified_elapsed { sample_download with dl_eta_sec := fin 5 } 6000000)
        (unified_remain { sample_download with dl_eta_sec := fin 5 }) := by
    rw [e1, e2, r1, r2]
    simp only [GDouble.add]
    norm_num
  refine ⟨htot, C14_fraction_monotone _ _ _ _ ?_ ?_ ?_ ?_ htot⟩
  · rw [e1]; simp [GDouble.le]
  · rw [e1, e2]; simp only [GDouble.le, decide_eq_true_eq]; norm_num
  · rw [r1]; simp [GDouble.le]
  · rw [r2]; simp [GDouble.le]


/-! ## C11: the transcoder's lines in a two-phase job -/

/-- The watches of a log that grew are those of the old log and those of the
added calls. -/
theorem watches_on_append (a b : List Call) (fd : Int) :
    watches_on (a ++ b) fd = watches_on a fd ++ watches_on b fd := by
  simp [watches_on, List.filterMap_append]

/-- The downloader exit handler registers no watch whose user data is the
application state: such a watch in its log was there before. -/
theorem child_watch_ytdlp_watches (w : AppWidgets) (status : Nat) (ffprobe fs : Option String)
    (spawn : SpawnResult) (now_us : Int) (fd : Int) (func : WatchFunc)
    (h : (func, true) ∈ watches_on (child_watch_ytdlp w status ffprobe fs spawn now_us).calls fd) :
    (func, true) ∈ watches_on w.calls fd := by
  unfold child_watch_ytdlp at h
  simp only at h
  split_ifs at h
  · exact h
  · exact h
  · split at h
    · exact h
    · cases spawn with
      | fail message =>
        have h2 : (func, true) ∈ watches_on (w.calls ++
            [Call.spawn (ffmpeg_argv YTDLP_TMP_FILE
              (append_extension_if_missing (some w.output_entry)
                (gtk_string_list_get_string w.format_dropdown)))]) fd := h
        rw [watches_on_append] at h2
        simpa [watches_on] using h2
      | ok pid stderr_fd =>
        have h2 : (func, true) ∈ watches_on (w.calls ++
            [Call.spawn (ffmpeg_argv YTDLP_TMP_FILE
              (append_extension_if_missing (some w.output_entry)
                (gtk_string_list_get_string w.format_dropdown)))] ++
            [Call.io_add_watch stderr_fd WatchFunc.ytdlp_progress_cb false,
             Call.source_remove_by_user_data_null,
             Call.io_add_watch stderr_fd WatchFunc.null false,
             Call.child_watch_add pid ChildFunc.child_watch_ffmpeg]) fd := h
        rw [watches_on_append, watches_on_append] at h2
        simp only [List.mem_append] at h2
        rcases h2 with (h2 | h2) | h2
        · exact h2
        · simp [watches_on] at h2
        · exfalso
          simp only [watches_on, List.filterMap_cons, List.filterMap_nil] at h2
          split_ifs at h2 <;> simp at h2

/-- The numbers on the two transcoder lines of scenario B and on the probe's
output. -/
theorem scenario_B_values :
    g_ascii_strtod ((cstr "out_time_ms=20000000\n".data).drop 12) = fin 20000000 ∧
    g_ascii_strtod ((cstr "speed=1.0x\n".data).drop 6) = fin 1 ∧
    g_ascii_strtod (cstr "40.0\n".data) = fin 40 := by
  have h1 : scanNumber ((cstr "out_time_ms=20000000\n".data).drop 12)
      = Scanned.dec false 20000000 0 := by decide
  have h2 : scanNumber ((cstr "speed=1.0x\n".data).drop 6) = Scanned.dec false 10 (-1) := by decide
  have h3 : scanNumber (cstr "40.0\n".data) = Scanned.dec false 400 (-1) := by decide
  have hb : ∀ q : ℚ, 1 / 1000 ≤ q → q < 2 ^ 64 → ofRatRange q = fin q := by
    intro q h0 h1
    have hb : (2 : ℚ) ^ 64 < overflowBound := by unfold overflowBound; norm_num
    have hu : underflowBound < 1 / 1000 := by unfold underflowBound; norm_num
    have h2 : ¬ overflowBound ≤ q := not_le.mpr (lt_trans h1 hb)
    have h3 : ¬ q ≤ -overflowBound := by intro h; linarith
    have h4 : ¬ |q| ≤ underflowBound := by
      rw [abs_of_nonneg (by linarith)]
      intro h; linarith
    simp [ofRatRange, h2, h3, h4]
  refine ⟨?_, ?_, ?_⟩
  · rw [g_ascii_strtod, h1, value_dec_nat _ (by norm_num)]; norm_num
  · rw [g_ascii_strtod, h2]
    simp only [Scanned.value]
    rw [hb _ (by norm_num) (by norm_num)]; norm_num
  · rw [g_ascii_strtod, h3]
    simp only [Scanned.value]
    rw [hb _ (by norm_num) (by norm_num)]; norm_num

/-- C11. Evaluation at the failing input. In the two-phase job of scenario B
the downloader has exited with status 0 and the probe gave 40 s: the phase is
Transcoding and the transcoder runs, but on its progress channel
`child_watch_ytdlp` has registered `ytdlp_progress_cb` with `NULL` for the
state and a watch without a function, never `ffmpeg_progress_cb`.  The lines
`out_time_ms=20000000` and `speed=1.0x` therefore leave the snapshot as it
was (fraction 0, remaining 0), whether or not the call
`g_source_remove_by_user_data (NULL)` destroyed the first watch.  The same
lines in the single-phase job started by `start_ffmpeg_conversion` on a file
of 40 s reach `ffmpeg_progress_cb` and give the fraction 1/2 and 20 s.  For
every input, the handler registers no watch that carries the state. -/
theorem C11_two_phase_lines :
    (sample_two_phase.phase = Phase.PHASE_TRANSCODING ∧
      sample_two_phase.ffmpeg_pid = 4010 ∧
      sample_two_phase.total_duration = fin 40 ∧
      watches_on sample_two_phase.calls 9
        = [(WatchFunc.ytdlp_progress_cb, false), (WatchFunc.null, false)] ∧
      deliver_lines sample_two_phase (watches_on sample_two_phase.calls 9) scenario_B_lines
        = some sample_two_phase ∧
      deliver_lines sample_two_phase (remove_null_data (watches_on sample_two_phase.calls 9))
        scenario_B_lines = some sample_two_phase ∧
      sample_two_phase.tx_progress_0_1 = fin 0 ∧
      sample_two_phase.tx_eta_sec = fin 0) ∧
    (sample_single_phase.phase = Phase.PHASE_TRANSCODING ∧
      sample_single_phase.total_duration = fin 40 ∧
      watches_on sample_single_phase.calls 9 = [(WatchFunc.ffmpeg_progress_cb, true)] ∧
      ∃ w : AppWidgets,
        deliver_lines sample_single_phase (watches_on sample_single_phase.calls 9)
          scenario_B_lines = some w ∧
        w.tx_progress_0_1 = fin (1 / 2) ∧ w.tx_eta_sec = fin 20) ∧
    (∀ (w : AppWidgets) (status : Nat) (ffprobe fs : Option String) (spawn : SpawnResult)
      (now_us : Int) (fd : Int) (func : WatchFunc),
      (func, true) ∈ watches_on (child_watch_ytdlp w status ffprobe fs spawn now_us).calls fd →
      (func, true) ∈ watches_on w.calls fd) := by
  have hw2 : watches_on sample_two_phase.calls 9
      = [(WatchFunc.ytdlp_progress_cb, false), (WatchFunc.null, false)] := by decide
  have hw1 : watches_on sample_single_phase.calls 9 = [(WatchFunc.ffmpeg_progress_cb, true)] := by
    decide
  have hdur : sample_two_phase.total_duration = fin 40 := by
    have hg : get_media_duration (some YTDLP_TMP_FILE) (some "40.0\n") = fin 40 := by
      simp [get_media_duration, scenario_B_values.2.2, GDouble.gt, GDouble.lt]
    have : sample_two_phase.total_duration
        = get_media_duration (some YTDLP_TMP_FILE) (some "40.0\n") := rfl
    rw [this, hg]
  refine ⟨⟨by decide, by decide, hdur, hw2, ?_, ?_, rfl, rfl⟩, ⟨by decide, rfl, hw1, ?_⟩,
    child_watch_ytdlp_watches⟩
  · rw [hw2]; rfl
  · rw [hw2]; rfl
  · refine ⟨ffmpeg_progress_line
      (ffmpeg_progress_line sample_single_phase "out_time_ms=20000000\n" 6000000)
      "speed=1.0x\n" 6000100, ?_, ?_⟩
    · rw [hw1]; rfl
    · have h := time_then_speed sample_single_phase "out_time_ms=20000000\n" "speed=1.0x\n"
        6000000 6000100 40 20000000 1 rfl (by norm_num) (by decide) scenario_B_values.1
        (by norm_num) (by norm_num) (by decide) scenario_B_values.2.1
      refine ⟨h.1.trans ?_, h.2.trans ?_⟩
      · norm_num
      · have hm : max (1 : ℚ) (1 / 10) = 1 := max_eq_left (by norm_num)
        rw [hm]; norm_num

/-- C11, last part, on scenario B: the only watch with the state in the log
after the downloader's exit is the downloader's own, on descriptor 7, which
`start_ytdlp` had registered. -/
theorem C11_two_phase_lines_witness :
    (WatchFunc.ytdlp_progress_cb, true) ∈ watches_on sample_two_phase.calls 7 ∧
    (WatchFunc.ytdlp_progress_cb, true) ∈ watches_on sample_download.calls 7 :=
  have h : (WatchFunc.ytdlp_progress_cb, true) ∈ watches_on sample_two_phase.calls 7 := by
    decide
  ⟨h, C11_two_phase_lines.2.2 sample_download 0 (some "40.0\n") none (SpawnResult.ok 4010 9)
    5000000 7 WatchFunc.ytdlp_progress_cb h⟩

end Betinha
